import Mathlib

/-!
# Verification of the snowflake-generator geometry pipeline

Shallow embedding of the procedural snowflake generator:

* `Snowflake.seedFromString` — the FNV-1a style string hash (`geometry.js`).
* `Snowflake.Geo1` — the `buildSnowflake2D` variant with the mirrored half arm.
* `Snowflake.Geo0` — the `buildSnowflake2D` variant with spine rails, branches,
  twigs and plates.
* `Snowflake.Sdf` — `sdfOutline.js`: point/segment distance, segment analysis,
  marching squares, loop building, Chaikin smoothing, loop simplification,
  the fallback polygon and `segmentsToPolygon`.
* `Snowflake.Normalize` — the physical-unit normalization tail of
  `makeSnowflakeMeshGeometry` (`App.jsx`).

JavaScript floating point arithmetic is embedded as exact real arithmetic;
machine 32-bit integer arithmetic is embedded as natural numbers reduced
modulo `2 ^ 32`.
-/

set_option maxRecDepth 4000

namespace Snowflake

/-- A 2D point, as a pair of real coordinates. -/
abbrev Pt : Type := ℝ × ℝ

/-- A line segment: an ordered pair of endpoints. -/
abbrev Seg : Type := Pt × Pt

/-- `Math.round`: round half toward positive infinity. -/
noncomputable def jsRound (x : ℝ) : ℤ := ⌊x + 1 / 2⌋

/-- Euclidean length of a segment (`Math.hypot` of the coordinate deltas). -/
noncomputable def segLen (s : Seg) : ℝ :=
  Real.sqrt ((s.2.1 - s.1.1) ^ 2 + (s.2.2 - s.1.2) ^ 2)

/-- `rotatePoint` from `geometry.js`: rotate a point about the origin. -/
noncomputable def rotatePoint (p : Pt) (angle : ℝ) : Pt :=
  (p.1 * Real.cos angle - p.2 * Real.sin angle,
   p.1 * Real.sin angle + p.2 * Real.cos angle)

/-- Rotate both endpoints of a segment about the origin. -/
noncomputable def rotateSeg (s : Seg) (angle : ℝ) : Seg :=
  (rotatePoint s.1 angle, rotatePoint s.2 angle)

/-- The six-fold replication loop shared by both `buildSnowflake2D` variants:
for `i = 0..5` emit every arm segment rotated by `i * π / 3`. -/
noncomputable def replicate6 (arm : List Seg) : List Seg :=
  (List.range 6).flatMap fun i => arm.map fun s => rotateSeg s (i * Real.pi / 3)

/-! ## Seeded RNG hash (`seedFromString`)

`seedFromString` in `geometry.js`:

```js
let h = 2166136261 >>> 0;
for (let i = 0; i < str.length; i += 1) {
  h ^= str.charCodeAt(i);
  h = Math.imul(h, 16777619);
}
return h >>> 0;
```

The string is embedded as its list of UTF-16 code units.  JavaScript `^`
coerces both operands to 32-bit integers (value: reduction mod `2 ^ 32`) and
`Math.imul` is 32-bit multiplication; the trailing `>>> 0` reinterprets the
accumulator as an unsigned 32-bit value, so the whole loop is exactly the fold
below over naturals reduced mod `2 ^ 32`. -/

/-- One step of the hash loop: XOR in the (32-bit coerced) character code,
then 32-bit multiply by the FNV prime. -/
def fnvStep (h c : ℕ) : ℕ := ((h ^^^ (c % 2 ^ 32)) * 16777619) % 2 ^ 32

/-- `seedFromString` over the list of character codes. -/
def seedFromString (codes : List ℕ) : ℕ := codes.foldl fnvStep 2166136261

/-- Modelled from the spec wording of §4.1: a 32-bit accumulator initialized to
`2166136261`; for each character XOR its code point then multiply by
`16777619` mod `2 ^ 32`. -/
def fnv1aSpec (codes : List ℕ) : ℕ :=
  codes.foldl (fun h c => ((h ^^^ c) * 16777619) % 2 ^ 32) 2166136261

theorem fnvStep_lt (h c : ℕ) : fnvStep h c < 2 ^ 32 := by
  have : 0 < 2 ^ 32 := by norm_num
  exact Nat.mod_lt _ this

theorem seedFromString_lt (codes : List ℕ) : seedFromString codes < 2 ^ 32 := by
  induction codes using List.reverseRecOn with
  | nil =>
      simp only [seedFromString, List.foldl_nil]
      norm_num
  | append_singleton xs x _ =>
      simp only [seedFromString, List.foldl_append, List.foldl_cons, List.foldl_nil]
      exact fnvStep_lt _ _

theorem seedFromString_eq_spec (codes : List ℕ)
    (hc : ∀ c ∈ codes, c < 2 ^ 32) : seedFromString codes = fnv1aSpec codes := by
  have key : ∀ (l : List ℕ) (h : ℕ), (∀ c ∈ l, c < 2 ^ 32) →
      l.foldl fnvStep h = l.foldl (fun h c => ((h ^^^ c) * 16777619) % 2 ^ 32) h := by
    intro l
    induction l with
    | nil =>
        intro h _
        simp only [List.foldl_nil]
    | cons c l ih =>
        intro h hcl
        have hclt : c < 2 ^ 32 := hcl c (by simp)
        simp only [List.foldl_cons]
        rw [show fnvStep h c = ((h ^^^ c) * 16777619) % 2 ^ 32 by
          unfold fnvStep
          rw [Nat.mod_eq_of_lt hclt]]
        exact ih _ fun d hd => hcl d (by simp [hd])
  exact key codes 2166136261 hc

/-! ## Parameter clamping (shared by both `buildSnowflake2D` variants)

```js
const levels = Math.max(1, Math.min(10, Math.round(complexity)));
const clampedThickness = Math.max(2, Math.min(20, Number(thickness) || 10));
```

`Number(thickness) || 10` replaces a falsy value (`0`, `NaN`) by the default
`10`; over the reals only `0` is falsy. -/

/-- `levels`: the clamped integer complexity, as a natural number in `[1,10]`. -/
noncomputable def levelsNat (complexity : ℝ) : ℕ :=
  (max 1 (min 10 (jsRound complexity))).toNat

open scoped Classical in
/-- `clampedThickness`: `Math.max(2, Math.min(20, Number(thickness) || 10))`. -/
noncomputable def clampThickness (thickness : ℝ) : ℝ :=
  max 2 (min 20 (if thickness = 0 then 10 else thickness))

/-- Mirror a point across the X axis. -/
def mirrorPt (p : Pt) : Pt := (p.1, -p.2)

/-- Mirror a segment across the X axis. -/
def mirrorSeg (s : Seg) : Seg := (mirrorPt s.1, mirrorPt s.2)

/-! ## `Geo1`: the half-arm `buildSnowflake2D` variant

The variant that grows a half arm along the positive X axis (spine steps with
optional branch and twig per step), mirrors it across the arm axis, and
replicates it six-fold.  The stateful `rand` closure is embedded as a stream
`ℕ → ℝ` of its successive values together with an explicit call counter. -/

namespace Geo1

/-- Loop state of the half-arm builder: the rand-call counter, the previous
node, the X cursor, and the segments so far. -/
structure BuildState where
  k : ℕ
  prev : Pt
  xCursor : ℝ
  halfArm : List Seg

open scoped Classical in
/-- One iteration of the half-arm loop (`for (let i = 0; i < levels + 2; ...)`):
a spine step (skipped below the minimum feature size `0.06`), then for non-tip
nodes a Bernoulli branch draw, with an optional twig on the branch. -/
noncomputable def armStep (stream : ℕ → ℝ) (levels : ℕ) (thicknessNorm baseStep : ℝ)
    (st : BuildState) (i : ℕ) : BuildState :=
  let step := baseStep * (0.82 + stream st.k * 0.28)
  let k1 := st.k + 1
  let xC := st.xCursor + step
  let curr : Pt := (xC, 0)
  let arm1 := if 0.06 ≤ step then st.halfArm ++ [(st.prev, curr)] else st.halfArm
  if i = levels + 1 then
    { k := k1, prev := curr, xCursor := xC, halfArm := arm1 }
  else
    let branchChance := min 0.88 (0.34 + (levels : ℝ) * 0.05 + thicknessNorm * 0.15)
    if stream k1 < branchChance then
      let branchLen := max 0.06
        (step * (0.7 + stream (k1 + 1) * 0.9) * (0.65 + thicknessNorm * 0.7))
      let branchAngle := (Real.pi / 3) * (0.34 + stream (k1 + 2) * 0.46)
      let e : Pt := (curr.1 + Real.cos branchAngle * branchLen,
                     curr.2 + Real.sin branchAngle * branchLen)
      let arm2 := arm1 ++ [(curr, e)]
      if stream (k1 + 3) < 0.45 then
        let twigLen := max 0.06 (branchLen * (0.3 + stream (k1 + 4) * 0.4))
        let twigAngle := branchAngle - (Real.pi / 6) * (0.35 + stream (k1 + 5) * 0.5)
        let te : Pt := (e.1 + Real.cos twigAngle * twigLen,
                        e.2 + Real.sin twigAngle * twigLen)
        { k := k1 + 6, prev := curr, xCursor := xC, halfArm := arm2 ++ [(e, te)] }
      else
        { k := k1 + 4, prev := curr, xCursor := xC, halfArm := arm2 }
    else
      { k := k1 + 1, prev := curr, xCursor := xC, halfArm := arm1 }

/-- The half arm: fold the loop body over `i = 0 .. levels + 1`. -/
noncomputable def halfArmOf (stream : ℕ → ℝ) (levels : ℕ) (thicknessNorm : ℝ) : List Seg :=
  ((List.range (levels + 2)).foldl
      (armStep stream levels thicknessNorm (0.28 + (levels : ℝ) * 0.05))
      { k := 0, prev := (0, 0), xCursor := 0, halfArm := [] }).halfArm

open scoped Classical in
/-- The full 60° arm: each half-arm segment plus its mirror image across the
arm axis, except for segments lying exactly on the axis (both Y = 0). -/
noncomputable def armOf (stream : ℕ → ℝ) (levels : ℕ) (thicknessNorm : ℝ) : List Seg :=
  (halfArmOf stream levels thicknessNorm).flatMap fun s =>
    if s.1.2 = 0 ∧ s.2.2 = 0 then [s] else [s, mirrorSeg s]

/-- `buildSnowflake2D` (half-arm variant): clamp the parameters, build the
arm, and replicate it six-fold. -/
noncomputable def buildSnowflake2D (stream : ℕ → ℝ) (complexity thickness : ℝ) : List Seg :=
  replicate6 (armOf stream (levelsNat complexity) (clampThickness thickness / 20))

end Geo1

/-! ## `Geo0`: the spine/rails/branches/twigs/plates `buildSnowflake2D` variant

The variant that builds `levels + 8` spine nodes along the positive X axis,
reinforces the spine with two mirrored rails, attaches mirrored branch pairs
with twigs and plates at interior nodes, terminates the spine with three tip
segments, and replicates the arm six-fold. -/

namespace Geo0

/-- X coordinates of the spine nodes: node `0` at the origin, each further
node one randomized step (`stepBase * (0.9 + rand * 0.2)`) to the right.
The step toward node `i + 1` consumes stream value `i`. -/
noncomputable def spineX (stream : ℕ → ℝ) (stepBase : ℝ) : ℕ → ℝ
  | 0 => 0
  | i + 1 => spineX stream stepBase i + stepBase * (0.9 + stream i * 0.2)

/-- Twig parameters drawn once per node and reused for both mirrored sides. -/
structure TwigParam where
  dirScale : ℝ
  lenScale : ℝ
  along : ℝ

/-- Plate parameters drawn once per node and reused for both mirrored sides. -/
structure PlateParam where
  baseAlong : ℝ
  ridgeLenScale : ℝ

open scoped Classical in
/-- One iteration of the branch loop (`for (let i = 1; i < nodeCount - 1; ...)`)
over the state `(rand counter, segments so far)`: skip head/tail exclusion
bands, draw the Bernoulli branch trial, then draw branch angle/length, twig
and plate parameters, and emit both mirrored sides. -/
noncomputable def branchStep (stream : ℕ → ℝ) (L nodeCount : ℕ) (tn : ℝ) (xs : ℕ → ℝ)
    (st : ℕ × List Seg) (i : ℕ) : ℕ × List Seg :=
  let t := (i : ℝ) / ((nodeCount : ℝ) - 1)
  let p : Pt := (xs i, 0)
  if t < 0.28 ∨ 0.97 < t then st
  else
    let k := st.1
    let branchProbability := min 0.95 (0.58 + (L : ℝ) * 0.024)
    if branchProbability < stream k then (k + 1, st.2)
    else
      let angleBase := Real.pi / 3 + (0.5 - min t 0.5) * 0.42
      let baseBranchAngle := angleBase + stream (k + 1) * (Real.pi / 15)
      let falloff := max 0.32 (1 - |t - 0.64| * 1.06)
      let branchScale := falloff * (1 + tn * 0.14)
      let innerLengthBoost := if t < 0.45 then (0.62 : ℝ) else 1
      let branchLen := max 0.06
        ((0.54 + (L : ℝ) * 0.118) * branchScale * (0.95 + stream (k + 2) * 0.42)
          * innerLengthBoost)
      let addTwig := stream (k + 3) < 0.86
      let twigCount := if addTwig then 1 + (if stream (k + 4) < 0.48 then 1 else 0) else 0
      let k4 := k + 4 + (if addTwig then 1 else 0)
      let twigParams := (List.range twigCount).map fun (kk : ℕ) =>
        ({ dirScale := 0.42 + stream (k4 + 3 * kk) * 0.25
           lenScale := (0.2 + stream (k4 + 3 * kk + 1) * 0.18) * (1 - (kk : ℝ) * 0.14)
           along := 0.38 + 0.5 * stream (k4 + 3 * kk + 2) } : TwigParam)
      let k5 := k4 + 3 * twigCount
      let addPlates := stream k5 < 0.75
      let k6 := k5 + 1
      let plateCount :=
        if addPlates then 1 + (if 6 < L ∧ stream k6 < 0.42 then 1 else 0) else 0
      let k7 := k6 + (if addPlates ∧ 6 < L then 1 else 0)
      let plateParams := (List.range plateCount).map fun (n : ℕ) =>
        ({ baseAlong := 0.52 + (n : ℝ) * 0.18
           ridgeLenScale := 0.18 + stream (k7 + n) * 0.14 } : PlateParam)
      let k8 := k7 + plateCount
      let makeSide : ℝ → List Seg := fun sideSign =>
        let branchAngle := sideSign * baseBranchAngle
        let branchEnd : Pt := (p.1 + Real.cos branchAngle * branchLen,
                               p.2 + Real.sin branchAngle * branchLen)
        [(p, branchEnd)]
        ++ (if addTwig then
              twigParams.map fun tp =>
                let dir := branchAngle + sideSign * (Real.pi / 2) * tp.dirScale
                let twigLen := max 0.06 (branchLen * tp.lenScale)
                let twigBase : Pt := (p.1 + (branchEnd.1 - p.1) * tp.along,
                                      p.2 + (branchEnd.2 - p.2) * tp.along)
                ((twigBase, (twigBase.1 + Real.cos dir * twigLen,
                             twigBase.2 + Real.sin dir * twigLen)) : Seg)
            else [])
        ++ (if addPlates then
              plateParams.map fun pp =>
                let ridgeAngle := branchAngle + sideSign * (Real.pi / 2)
                let base : Pt := (p.1 + (branchEnd.1 - p.1) * pp.baseAlong,
                                  p.2 + (branchEnd.2 - p.2) * pp.baseAlong)
                let ridgeLen := max 0.06 (branchLen * pp.ridgeLenScale)
                ((base, (base.1 + Real.cos ridgeAngle * ridgeLen,
                         base.2 + Real.sin ridgeAngle * ridgeLen)) : Seg)
            else [])
      (k8, st.2 ++ makeSide 1 ++ makeSide (-1))

/-- The full 60° arm: spine segments, mirrored rails, branch clusters, and the
three tip segments, in source emission order. -/
noncomputable def armOf (stream : ℕ → ℝ) (L : ℕ) (tn : ℝ) : List Seg :=
  let nodeCount := L + 8
  let mainLength := 3 + (L : ℝ) * 0.42
  let stepBase := mainLength / ((nodeCount : ℝ) - 1)
  let xs := spineX stream stepBase
  let spineSegs : List Seg := (List.range (nodeCount - 1)).map fun i =>
    ((xs i, 0), (xs (i + 1), 0))
  let railOffset := 0.07 + tn * 0.06
  let rails : List Seg := (List.range (nodeCount - 1)).flatMap fun i =>
    [((xs i, railOffset), (xs (i + 1), railOffset)),
     ((xs i, -railOffset), (xs (i + 1), -railOffset))]
  let branches := ((List.range' 1 (nodeCount - 2)).foldl
      (branchStep stream L nodeCount tn xs) (nodeCount - 1, [])).2
  let tip : Pt := (xs (nodeCount - 1), 0)
  let tipLen := max 0.06 (0.32 + (L : ℝ) * 0.022)
  let tipSegs : List Seg :=
    [(tip, (tip.1 + Real.cos (Real.pi * 0.74) * tipLen,
            tip.2 + Real.sin (Real.pi * 0.74) * tipLen)),
     (tip, (tip.1 + Real.cos (-(Real.pi * 0.74)) * tipLen,
            tip.2 + Real.sin (-(Real.pi * 0.74)) * tipLen)),
     (tip, (tip.1 + Real.cos Real.pi * (tipLen * 0.44),
            tip.2 + Real.sin Real.pi * (tipLen * 0.44)))]
  spineSegs ++ rails ++ branches ++ tipSegs

/-- `buildSnowflake2D` (spine/rails variant): clamp the parameters, build the
arm, and replicate it six-fold. -/
noncomputable def buildSnowflake2D (stream : ℕ → ℝ) (complexity thickness : ℝ) : List Seg :=
  replicate6 (armOf stream (levelsNat complexity) (clampThickness thickness / 20))

end Geo0

/-! ## `Sdf`: the SDF outline pipeline (`sdfOutline.js`) -/

namespace Sdf

/-- `clamp(value, min, max)` from `sdfOutline.js`. -/
noncomputable def clampR (value lo hi : ℝ) : ℝ := max lo (min hi value)

open scoped Classical in
/-- `distancePointToSegment(px, py, ax, ay, bx, by)`, with the three points
passed as pairs: distance from `p` to segment `a`-`b`, via the clamped
projection parameter; segments of squared length at most `1e-12` fall back to
the distance to endpoint `a`. -/
noncomputable def distancePointToSegment (p a b : Pt) : ℝ :=
  let abx := b.1 - a.1
  let aby := b.2 - a.2
  let apx := p.1 - a.1
  let apy := p.2 - a.2
  let ab2 := abx * abx + aby * aby
  if ab2 ≤ 1e-12 then Real.sqrt ((p.1 - a.1) ^ 2 + (p.2 - a.2) ^ 2)
  else
    let t := clampR ((apx * abx + apy * aby) / ab2) 0 1
    let cx := a.1 + abx * t
    let cy := a.2 + aby * t
    Real.sqrt ((p.1 - cx) ^ 2 + (p.2 - cy) ^ 2)

/-- The squared length `ab2` guarding the division in
`distancePointToSegment`. -/
def ab2Of (a b : Pt) : ℝ := (b.1 - a.1) * (b.1 - a.1) + (b.2 - a.2) * (b.2 - a.2)

/-- The point of segment `a`-`b` at parameter `s ∈ [0,1]`. -/
def segPoint (a b : Pt) (s : ℝ) : Pt := (a.1 + (b.1 - a.1) * s, a.2 + (b.2 - a.2) * s)

/-- Euclidean distance between two points (`Math.hypot` of the deltas). -/
noncomputable def ptDist (p q : Pt) : ℝ := Real.sqrt ((p.1 - q.1) ^ 2 + (p.2 - q.2) ^ 2)

open scoped Classical in
/-- `shortestAngleDiff(a, b)`: normalize `a - b` into `[-π, π]`.  The two
source `while` loops subtract (resp. add) `2π` until the value is at most `π`
(resp. at least `-π`); the ceiling expressions below count those iterations
in closed form. -/
noncomputable def shortestAngleDiff (a b : ℝ) : ℝ :=
  let d := a - b
  if Real.pi < d then d - 2 * Real.pi * ⌈(d - Real.pi) / (2 * Real.pi)⌉
  else if d < -Real.pi then d + 2 * Real.pi * ⌈(-Real.pi - d) / (2 * Real.pi)⌉
  else d

/-- `hash01(value)`: the deterministic sine hash, `s - Math.floor(s)` of
`sin(value * 127.1 + 311.7) * 43758.5453123`. -/
noncomputable def hash01 (value : ℝ) : ℝ :=
  let s := Real.sin (value * 127.1 + 311.7) * 43758.5453123
  s - ⌊s⌋

/-- `Math.atan2(y, x)`: the argument of the complex number `x + y·i`, in
`(-π, π]`, with `atan2(0, 0) = 0`. -/
noncomputable def atan2 (y x : ℝ) : ℝ := Complex.arg ⟨x, y⟩

/-- One entry of the `analyzeSegments` output. -/
structure Analyzed where
  a : Pt
  b : Pt
  depthScale : ℝ

/-- The per-segment body of `analyzeSegments`: classify the segment by its
angular deviation from the nearest 60° axis and its length, add the
symmetric deterministic jitter, and clamp the resulting depth scale. -/
noncomputable def analyzeSegment (s : Seg) : Analyzed :=
  let dx := s.2.1 - s.1.1
  let dy := s.2.2 - s.1.2
  let len := max 1e-8 (Real.sqrt (dx ^ 2 + dy ^ 2))
  let mx := (s.1.1 + s.2.1) * 0.5
  let my := (s.1.2 + s.2.2) * 0.5
  let theta := atan2 my mx
  let axisIndex := jsRound (theta / (Real.pi / 3))
  let axisAngle := (axisIndex : ℝ) * (Real.pi / 3)
  let delta := |shortestAngleDiff theta axisAngle|
  let twigness := clampR ((clampR (delta / (Real.pi / 3)) 0 1) ^ (1.15 : ℝ) * 0.75
      + clampR (1 - len / 1.35) 0 1 * 0.35) 0 1
  let r := Real.sqrt (mx ^ 2 + my ^ 2)
  let localJitter := hash01 ((jsRound (r * 37) : ℝ) * 0.73
      + (jsRound (len * 41) : ℝ) * 1.13 + (jsRound (delta * 500) : ℝ) * 0.29)
  let twigVariation := (localJitter - 0.5) * 0.7
  let baseScale := 1.28 - twigness * 0.62
  { a := s.1, b := s.2,
    depthScale := clampR (baseScale + twigness * twigVariation) 0.58 1.45 }

/-- `analyzeSegments`: analyze every segment in order. -/
noncomputable def analyzeSegments (segments : List Seg) : List Analyzed :=
  segments.map analyzeSegment

open scoped Classical in
/-- `polygonArea(points)`: half the shoelace sum over cyclically adjacent
point pairs; `0` for fewer than 3 points. -/
noncomputable def polygonArea (points : List Pt) : ℝ :=
  if points.length < 3 then 0
  else (∑ i ∈ Finset.range points.length,
      ((points.getD i (0, 0)).1 * (points.getD ((i + 1) % points.length) (0, 0)).2
        - (points.getD ((i + 1) % points.length) (0, 0)).1
          * (points.getD i (0, 0)).2)) * 0.5

/-- Axis-aligned bounding region of a segment list. -/
structure Bounds where
  minX : ℝ
  minY : ℝ
  maxX : ℝ
  maxY : ℝ

/-- `boundsFromSegments`: fold `min`/`max` over every endpoint.  The source
seeds with `±Infinity` and substitutes `[-1,1]²` when the result is not
finite, i.e. exactly when the list is empty; here the fold over a nonempty
list is seeded with the first segment directly. -/
noncomputable def boundsFromSegments (segs : List Seg) : Bounds :=
  match segs with
  | [] => ⟨-1, -1, 1, 1⟩
  | s :: rest =>
      rest.foldl (fun bd sg =>
        ⟨min bd.minX (min sg.1.1 sg.2.1), min bd.minY (min sg.1.2 sg.2.2),
         max bd.maxX (max sg.1.1 sg.2.1), max bd.maxY (max sg.1.2 sg.2.2)⟩)
        ⟨min s.1.1 s.2.1, min s.1.2 s.2.2, max s.1.1 s.2.1, max s.1.2 s.2.2⟩

/-- One Chaikin corner-cutting pass with cut ratio `cut`. -/
noncomputable def chaikinOnce (cut : ℝ) (loop : List Pt) : List Pt :=
  (List.range loop.length).flatMap fun i =>
    let p0 := loop.getD i (0, 0)
    let p1 := loop.getD ((i + 1) % loop.length) (0, 0)
    [((1 - cut) * p0.1 + cut * p1.1, (1 - cut) * p0.2 + cut * p1.2),
     (cut * p0.1 + (1 - cut) * p1.1, cut * p0.2 + (1 - cut) * p1.2)]

/-- `chaikin(points, iterations, cut)`: iterate the corner-cutting pass. -/
noncomputable def chaikin (points : List Pt) : ℕ → ℝ → List Pt
  | 0, _ => points
  | n + 1, cut => chaikinOnce cut (chaikin points n cut)

open scoped Classical in
/-- The removal test of `simplifyLoop` at index `i`: an adjacent edge shorter
than `minEdge`, or a near-collinear vertex (cross product below
`collinearEps` relative to the edge lengths). -/
noncomputable def removableAt (loop : List Pt) (minEdge collinearEps : ℝ) (i : ℕ) : Prop :=
  let n := loop.length
  let prev := loop.getD ((i + n - 1) % n) (0, 0)
  let curr := loop.getD i (0, 0)
  let next := loop.getD ((i + 1) % n) (0, 0)
  let vx0 := curr.1 - prev.1
  let vy0 := curr.2 - prev.2
  let vx1 := next.1 - curr.1
  let vy1 := next.2 - curr.2
  let l0 := Real.sqrt (vx0 ^ 2 + vy0 ^ 2)
  let l1 := Real.sqrt (vx1 ^ 2 + vy1 ^ 2)
  l0 < minEdge ∨ l1 < minEdge ∨ |vx0 * vy1 - vy0 * vx1| < collinearEps * l0 * l1

open scoped Classical in
/-- Scan for the first removable vertex index, starting at `i` with the given
amount of fuel (the inner `for` of `simplifyLoop`). -/
noncomputable def findRemovableAux (loop : List Pt) (minEdge collinearEps : ℝ) :
    ℕ → ℕ → Option ℕ
  | 0, _ => none
  | fuel + 1, i =>
      if removableAt loop minEdge collinearEps i then some i
      else findRemovableAux loop minEdge collinearEps fuel (i + 1)

/-- First removable vertex index of the loop, if any. -/
noncomputable def findRemovable (loop : List Pt) (minEdge collinearEps : ℝ) : Option ℕ :=
  findRemovableAux loop minEdge collinearEps loop.length 0

open scoped Classical in
/-- The `while (changed && loop.length > 6)` loop of `simplifyLoop`: each
iteration removes the first removable vertex, if any.  Every iteration
removes exactly one vertex, so fuel equal to the initial length is enough for
the loop to reach its natural exit. -/
noncomputable def simplifyGo (minEdge collinearEps : ℝ) : ℕ → List Pt → List Pt
  | 0, l => l
  | fuel + 1, l =>
      if 6 < l.length then
        match findRemovable l minEdge collinearEps with
        | some i => simplifyGo minEdge collinearEps fuel (l.eraseIdx i)
        | none => l
      else l

open scoped Classical in
/-- `simplifyLoop(points, minEdge, collinearEps)`: loops of fewer than 6
points are returned as an unchanged copy; otherwise vertices are removed
until none is removable or the loop would drop below 6 points. -/
noncomputable def simplifyLoop (points : List Pt) (minEdge collinearEps : ℝ) : List Pt :=
  if points.length < 6 then points
  else simplifyGo minEdge collinearEps points.length points

end Sdf

namespace Sdf

/-- Grid-edge identity: the `h_ix_iy` / `v_ix_iy` / `p_ix_iy` string keys of
`interpolateEdgeNode`, as an injective inductive encoding. -/
inductive EKey where
  | h (ix iy : ℕ)
  | v (ix iy : ℕ)
  | p (ix iy : ℕ)
deriving DecidableEq

/-- A contour node: its grid-edge key and interpolated position. -/
structure Node where
  key : EKey
  point : Pt

instance : Inhabited Node := ⟨⟨EKey.p 0 0, (0, 0)⟩⟩

/-- A marching-squares contour segment between two nodes. -/
structure CSeg where
  a : Node
  b : Node

instance : Inhabited CSeg := ⟨⟨default, default⟩⟩

open scoped Classical in
/-- The inner `interp` helper: zero-crossing parameter along an edge, `0.5`
when the denominator is nearly zero, clamped into `[0,1]`. -/
noncomputable def interpT (a b : ℝ) : ℝ :=
  if |b - a| < 1e-12 then 0.5 else clampR (-a / (b - a)) 0 1

/-- `interpolateEdgeNode`: the keyed crossing node on cell edge `edgeId`. -/
noncomputable def interpolateEdgeNode (ix iy : ℕ) (x y cellSize : ℝ) (edgeId : ℕ)
    (v0 v1 v2 v3 : ℝ) : Node :=
  match edgeId with
  | 0 => ⟨EKey.h ix iy, (x + interpT v0 v1 * cellSize, y)⟩
  | 1 => ⟨EKey.v (ix + 1) iy, (x + cellSize, y + interpT v1 v2 * cellSize)⟩
  | 2 => ⟨EKey.h ix (iy + 1), (x + interpT v3 v2 * cellSize, y + cellSize)⟩
  | 3 => ⟨EKey.v ix iy, (x, y + interpT v0 v3 * cellSize)⟩
  | _ => ⟨EKey.p ix iy, (x, y)⟩

open scoped Classical in
/-- `caseToEdgePairs`: the 16 marching-squares cases, with the saddle cases
`5` and `10` disambiguated by the cell-center value. -/
noncomputable def caseToEdgePairs (mask : ℕ) (centerValue : ℝ) : List (ℕ × ℕ) :=
  match mask with
  | 0 => []
  | 1 => [(3, 0)]
  | 2 => [(0, 1)]
  | 3 => [(3, 1)]
  | 4 => [(1, 2)]
  | 5 => if centerValue < 0 then [(3, 0), (1, 2)] else [(3, 2), (0, 1)]
  | 6 => [(0, 2)]
  | 7 => [(3, 2)]
  | 8 => [(2, 3)]
  | 9 => [(0, 2)]
  | 10 => if centerValue < 0 then [(0, 1), (2, 3)] else [(3, 0), (1, 2)]
  | 11 => [(1, 2)]
  | 12 => [(1, 3)]
  | 13 => [(0, 1)]
  | 14 => [(3, 0)]
  | _ => []

/-- The sampling grid of `segmentsToPolygon`: origin, cell size, cell counts
and the stroke radius. -/
structure Grid where
  minX : ℝ
  minY : ℝ
  cellSize : ℝ
  nx : ℕ
  ny : ℕ
  radius : ℝ

/-- Derivation of the sampling grid from the segment bounds, resolution, and
stroke radius options (the prologue of `segmentsToPolygon`). -/
noncomputable def gridOf (segments : List Seg)
    (gridResolution radiusMm targetDiameterMm : ℝ) : Grid :=
  let resolution := clampR gridResolution 160 240
  let bounds := boundsFromSegments segments
  let width := max (bounds.maxX - bounds.minX) 1e-6
  let height := max (bounds.maxY - bounds.minY) 1e-6
  let diameterLocal := max (max width height) 1e-6
  let localPerMm := diameterLocal / targetDiameterMm
  let radius := max 0.02 (radiusMm * localPerMm)
  let pad := radius * 2.5
  let minX := bounds.minX - pad
  let maxX := bounds.maxX + pad
  let minY := bounds.minY - pad
  let maxY := bounds.maxY + pad
  let spanX := maxX - minX
  let spanY := maxY - minY
  let cellSize := max spanX spanY / resolution
  { minX := minX, minY := minY, cellSize := cellSize,
    nx := max 2 ⌈spanX / cellSize⌉.toNat, ny := max 2 ⌈spanY / cellSize⌉.toNat,
    radius := radius }

/-- Minimum distance from a grid node to any segment.  The source seeds the
minimum with `Infinity`; over a nonempty list this is the fold below (the
empty case is unreachable behind the early fallback return). -/
noncomputable def minSegDist (x y : ℝ) (segments : List Seg) : ℝ :=
  match segments with
  | [] => 0
  | s :: rest =>
      rest.foldl (fun m sg => min m (distancePointToSegment (x, y) sg.1 sg.2))
        (distancePointToSegment (x, y) s.1 s.2)

/-- The signed distance field value at grid node `(ix, iy)`. -/
noncomputable def fieldAt (g : Grid) (segments : List Seg) (ix iy : ℕ) : ℝ :=
  minSegDist (g.minX + ix * g.cellSize) (g.minY + iy * g.cellSize) segments - g.radius

open scoped Classical in
/-- Marching-squares emission for one cell: build the 4-bit sign mask, look up
the edge pairing, and interpolate both crossing nodes of every pair. -/
noncomputable def cellContour (g : Grid) (segments : List Seg) (ix iy : ℕ) : List CSeg :=
  let x := g.minX + ix * g.cellSize
  let y := g.minY + iy * g.cellSize
  let v0 := fieldAt g segments ix iy
  let v1 := fieldAt g segments (ix + 1) iy
  let v2 := fieldAt g segments (ix + 1) (iy + 1)
  let v3 := fieldAt g segments ix (iy + 1)
  let centerValue := 0.25 * (v0 + v1 + v2 + v3)
  let mask := (if v0 < 0 then 1 else 0) + (if v1 < 0 then 2 else 0)
      + (if v2 < 0 then 4 else 0) + (if v3 < 0 then 8 else 0)
  if mask = 0 ∨ mask = 15 then []
  else (caseToEdgePairs mask centerValue).map fun pr =>
    ⟨interpolateEdgeNode ix iy x y g.cellSize pr.1 v0 v1 v2 v3,
     interpolateEdgeNode ix iy x y g.cellSize pr.2 v0 v1 v2 v3⟩

/-- All contour segments of the grid, in row-major cell order. -/
noncomputable def contourSegs (g : Grid) (segments : List Seg) : List CSeg :=
  (List.range g.ny).flatMap fun iy =>
    (List.range g.nx).flatMap fun ix => cellContour g segments ix iy

/-- The `byKey` adjacency of `buildLoopsFromSegments`: indices of contour
segments incident to key `k`, in insertion order (`a` endpoint before `b`
endpoint for each segment). -/
noncomputable def neighborsOf (cs : List CSeg) (k : EKey) : List ℕ :=
  cs.enum.flatMap fun pr =>
    (if pr.2.a.key = k then [pr.1] else []) ++ (if pr.2.b.key = k then [pr.1] else [])

/-- The `keyToPoint` map: the first point registered for key `k`. -/
noncomputable def keyToPoint (cs : List CSeg) (k : EKey) : Pt :=
  (((cs.flatMap fun s => [(s.a.key, s.a.point), (s.b.key, s.b.point)]).find?
      fun kv => decide (kv.1 = k)).map Prod.snd).getD (0, 0)

/-- The endpoint-chaining walk of `buildLoopsFromSegments`, with the `safety`
fuel counter of the source.  State: remaining fuel, used segment set, current
key, current segment index, accumulated loop keys. -/
noncomputable def walkLoop (cs : List CSeg) (startKey : EKey) :
    ℕ → Finset ℕ → EKey → ℕ → List EKey → List EKey × Finset ℕ
  | 0, used, _, _, acc => (acc, used)
  | fuel + 1, used, currentKey, currentSegIndex, acc =>
      if currentKey = startKey then (acc, used)
      else
        match (neighborsOf cs currentKey).find?
            (fun j => decide (¬(j = currentSegIndex ∨ j ∈ used))) with
        | none => (acc, used)
        | some j =>
            let s := cs.getD j default
            let nextKey := if s.a.key = currentKey then s.b.key else s.a.key
            walkLoop cs startKey fuel (insert j used) nextKey j (acc ++ [nextKey])

open scoped Classical in
/-- `buildLoopsFromSegments`: chain unused contour segments into closed key
loops, convert closed chains of at least 4 keys into point loops. -/
noncomputable def buildLoopsFromSegments (cs : List CSeg) : List (List Pt) :=
  ((List.range cs.length).foldl (fun (st : Finset ℕ × List (List Pt)) i =>
    if i ∈ st.1 then st
    else
      let s := cs.getD i default
      let startKey := s.a.key
      let walked := walkLoop cs startKey (cs.length * 3) (insert i st.1) s.b.key i
        [s.a.key, s.b.key]
      if 4 ≤ walked.1.length ∧
          walked.1.headD (EKey.p 0 0) = walked.1.getLastD (EKey.p 0 0) then
        (walked.2, st.2 ++ [walked.1.dropLast.map (keyToPoint cs)])
      else (walked.2, st.2)) (∅, [])).2

/-- `fallbackPolygon(segments)`: the synthetic regular 24-gon covering the
segment bounding box. -/
noncomputable def fallbackPolygon (segments : List Seg) : List Pt :=
  let bd := boundsFromSegments segments
  let cx := (bd.minX + bd.maxX) * 0.5
  let cy := (bd.minY + bd.maxY) * 0.5
  let r := max (max (bd.maxX - bd.minX) (bd.maxY - bd.minY)) 1 * 0.5 * 1.05
  (List.range 24).map fun (i : ℕ) =>
    let a := ((i : ℝ) / 24) * Real.pi * 2
    (cx + Real.cos a * r, cy + Real.sin a * r)

/-- The largest-|area| loop (first wins on ties), `loops[0]` seeded. -/
noncomputable def bestLoop (loops : List (List Pt)) : List Pt :=
  match loops with
  | [] => []
  | l0 :: rest =>
      (rest.foldl (fun (acc : List Pt × ℝ) l =>
        let area := |polygonArea l|
        if acc.2 < area then (l, area) else acc) (l0, |polygonArea l0|)).1

/-- Number of Chaikin passes: the clamped real `smoothingIterations` drives a
`for (it = 0; it < iterations; ...)` loop, which runs `⌈iterations⌉` times. -/
noncomputable def smoothIters (smoothingIterations : ℝ) : ℕ :=
  ⌈clampR smoothingIterations 1 3⌉.toNat

open scoped Classical in
/-- `segmentsToPolygon(segments, options)`: the full SDF / marching-squares /
refinement pipeline with its fallback cascade.  The four option fields are
passed explicitly (the source defaults are `200`, `2`, `2.5`, `110`). -/
noncomputable def segmentsToPolygon (segments : List Seg)
    (gridResolution smoothingIterations radiusMm targetDiameterMm : ℝ) : List Pt :=
  if segments = [] then fallbackPolygon []
  else
    let g := gridOf segments gridResolution radiusMm targetDiameterMm
    let cs := contourSegs g segments
    if cs.length < 3 then fallbackPolygon segments
    else
      let loops := buildLoopsFromSegments cs
      if loops = [] then fallbackPolygon segments
      else
        let smoothed := chaikin (bestLoop loops) (smoothIters smoothingIterations) 0.12
        let loop := simplifyLoop smoothed (g.cellSize * 0.22) 0.012
        if loop.length < 8 then fallbackPolygon segments
        else
          let loop2 := if polygonArea loop < 0 then loop.reverse else loop
          let first := loop2.headD (0, 0)
          let last := loop2.getLastD (0, 0)
          if g.cellSize * 0.25 < Real.sqrt ((first.1 - last.1) ^ 2 + (first.2 - last.2) ^ 2)
          then loop2 ++ [(first.1, first.2)]
          else loop2

end Sdf

/-! ## `Normalize`: the physical-unit normalization of `makeSnowflakeMeshGeometry`

`App.jsx` (lines 136–163): after the extruded wedge geometries are merged,
the mesh is rescaled so its XY bounding diameter equals
`Math.max(1, Number(sizeInches) || 3) * 25.4` millimeters, the depth axis is
rescaled independently to one twentieth of that diameter, and each vertex is
then pushed away from the midplane to a minimum half depth of 1 mm.  The
merged mesh (built by the external `three.js` extrusion) is abstracted as its
vertex position list; only rational arithmetic occurs here, so the model is
exact and computable. -/

namespace Normalize

/-- A 3D vertex position. -/
abbrev V3 : Type := ℚ × ℚ × ℚ

/-- Minimum of a list (first element seeded; `0` for the empty list, which the
statements below exclude). -/
def minList (l : List ℚ) : ℚ :=
  match l with
  | [] => 0
  | x :: r => r.foldl min x

/-- Maximum of a list (first element seeded; `0` for the empty list). -/
def maxList (l : List ℚ) : ℚ :=
  match l with
  | [] => 0
  | x :: r => r.foldl max x

/-- Bounding-box X extent (`size.x` of the computed bounding box). -/
def sizeX (verts : List V3) : ℚ := maxList (verts.map (·.1)) - minList (verts.map (·.1))

/-- Bounding-box Y extent. -/
def sizeY (verts : List V3) : ℚ :=
  maxList (verts.map (·.2.1)) - minList (verts.map (·.2.1))

/-- Bounding-box Z extent. -/
def sizeZ (verts : List V3) : ℚ :=
  maxList (verts.map (·.2.2)) - minList (verts.map (·.2.2))

/-- `Math.max(size.x, size.y) ` of a vertex list: the planar bounding
diameter. -/
def maxExtentXY (verts : List V3) : ℚ := max (sizeX verts) (sizeY verts)

/-- `targetDiameterMm = Math.max(1, Number(sizeInches) || 3) * MM_PER_IN`
with `MM_PER_IN = 25.4`; `Number(sizeInches) || 3` replaces falsy `0` by the
default `3`. -/
def targetDiameterMm (sizeInches : ℚ) : ℚ :=
  max 1 (if sizeInches = 0 then 3 else sizeInches) * (254 / 10)

/-- The normalization tail of `makeSnowflakeMeshGeometry` on the merged
vertex list: uniform in-plane rescale to the target diameter, independent
depth rescale to one twentieth of it, then the 1 mm minimum-half-depth
clamp. -/
def normalizeMesh (verts : List V3) (sizeInches : ℚ) : List V3 :=
  let baseDiameterXY := max (maxExtentXY verts) (1 / 1000000)
  let target := targetDiameterMm sizeInches
  let targetDepthMm := target / 20
  let scaleXY := target / baseDiameterXY
  let scaled := verts.map fun v => (v.1 * scaleXY, v.2.1 * scaleXY, v.2.2 * scaleXY)
  let currentDepth := max (sizeZ scaled) (1 / 1000000)
  let scaleZ := targetDepthMm / currentDepth
  let zscaled := scaled.map fun v => (v.1, v.2.1, v.2.2 * scaleZ)
  zscaled.map fun v => (v.1, v.2.1, (if 0 ≤ v.2.2 then 1 else -1) * max |v.2.2| 1)

end Normalize

/-! ## Shared structural lemmas -/

theorem replicate6_length (arm : List Seg) : (replicate6 arm).length = 6 * arm.length := by
  simp only [replicate6, List.length_flatMap, Function.comp_def, List.length_map]
  simp
  omega

theorem geo1_armOf_length_ge (stream : ℕ → ℝ) (L : ℕ) (tn : ℝ) :
    (Geo1.halfArmOf stream L tn).length ≤ (Geo1.armOf stream L tn).length := by
  rw [Geo1.armOf]
  generalize Geo1.halfArmOf stream L tn = l
  induction l with
  | nil => simp
  | cons s r ih =>
      simp only [List.flatMap_cons, List.length_append, List.length_cons]
      have : 1 ≤ (if s.1.2 = 0 ∧ s.2.2 = 0 then [s] else [s, mirrorSeg s]).length := by
        split <;> simp
      omega

/-! ## Claim C1 — parameter clamping -/

/-- **C1, counterexample**: the claim says a thickness below the bound `2`
(e.g. `thickness = 0`) produces the same segment list as `thickness = 2`.
It does not: `Number(0) || 10` replaces the falsy `0` by the *default* `10`,
so `thickness = 0` behaves as thickness `10`.  With the constant rand stream
`0.43` and `complexity = 1`, thickness `0` (normalized `0.5`) passes the
branch-chance test `0.43 < 0.465` and emits branch and twig segments, while
thickness `2` (normalized `0.1`) fails `0.43 < 0.405` and emits only the
three spine segments: the two outputs even have different lengths. -/
theorem claim_C1_counterexample :
    Geo1.buildSnowflake2D (fun _ => 0.43) 1 0 ≠ Geo1.buildSnowflake2D (fun _ => 0.43) 1 2 := by
  intro h
  have hlen := congrArg List.length h
  rw [Geo1.buildSnowflake2D, Geo1.buildSnowflake2D, replicate6_length, replicate6_length,
    show levelsNat 1 = 1 by norm_num [levelsNat, jsRound],
    show clampThickness 0 = 10 by norm_num [clampThickness],
    show clampThickness 2 = 2 by norm_num [clampThickness]] at hlen
  have h7 : (Geo1.halfArmOf (fun _ => 0.43) 1 (10 / 20)).length = 7 := by
    simp only [Geo1.halfArmOf, show List.range 3 = [0, 1, 2] from rfl,
      List.foldl_cons, List.foldl_nil]
    norm_num [Geo1.armStep]
  have hge := geo1_armOf_length_ge (fun _ => 0.43) 1 (10 / 20)
  rw [h7] at hge
  have h3 : (Geo1.armOf (fun _ => 0.43) 1 (2 / 20)).length = 3 := by
    simp only [Geo1.armOf, Geo1.halfArmOf, show List.range 3 = [0, 1, 2] from rfl,
      List.foldl_cons, List.foldl_nil]
    norm_num [Geo1.armStep, mirrorSeg, mirrorPt]
  rw [h3] at hlen
  omega

/-- **C1, amended**: clamping holds as claimed for complexity (`0` behaves as
`1`, `999` as `10`) and for thickness above its upper bound (`999` as `20`);
below the lower bound a *positive* thickness is clamped (`1` behaves as `2`),
but `thickness = 0` is replaced by the default `10` rather than clamped to
`2`.  Both `buildSnowflake2D` variants behave this way, for every rand
stream. -/
theorem claim_C1_amended (stream : ℕ → ℝ) (c t : ℝ) :
    (Geo1.buildSnowflake2D stream 0 t = Geo1.buildSnowflake2D stream 1 t ∧
     Geo1.buildSnowflake2D stream 999 t = Geo1.buildSnowflake2D stream 10 t ∧
     Geo1.buildSnowflake2D stream c 1 = Geo1.buildSnowflake2D stream c 2 ∧
     Geo1.buildSnowflake2D stream c 999 = Geo1.buildSnowflake2D stream c 20 ∧
     Geo1.buildSnowflake2D stream c 0 = Geo1.buildSnowflake2D stream c 10) ∧
    (Geo0.buildSnowflake2D stream 0 t = Geo0.buildSnowflake2D stream 1 t ∧
     Geo0.buildSnowflake2D stream 999 t = Geo0.buildSnowflake2D stream 10 t ∧
     Geo0.buildSnowflake2D stream c 1 = Geo0.buildSnowflake2D stream c 2 ∧
     Geo0.buildSnowflake2D stream c 999 = Geo0.buildSnowflake2D stream c 20 ∧
     Geo0.buildSnowflake2D stream c 0 = Geo0.buildSnowflake2D stream c 10) := by
  have l01 : levelsNat 0 = levelsNat 1 := by norm_num [levelsNat, jsRound]
  have l999 : levelsNat 999 = levelsNat 10 := by norm_num [levelsNat, jsRound]
  have t12 : clampThickness 1 = clampThickness 2 := by norm_num [clampThickness]
  have t999 : clampThickness 999 = clampThickness 20 := by norm_num [clampThickness]
  have t010 : clampThickness 0 = clampThickness 10 := by norm_num [clampThickness]
  refine ⟨⟨?_, ?_, ?_, ?_, ?_⟩, ?_, ?_, ?_, ?_, ?_⟩ <;>
    simp only [Geo1.buildSnowflake2D, Geo0.buildSnowflake2D, l01, l999, t12, t999, t010]

/-! ## Claim C4 — the FNV-1a hash -/

/-- **C4**: `seedFromString` is a pure fold over the character codes that
initializes the accumulator to `2166136261` and, for each character in order,
XORs in its code and multiplies by `16777619` mod `2 ^ 32`; the result is an
unsigned 32-bit value, and identical code lists give identical seeds (it is a
function).  Stated as: for code lists of 32-bit values (`charCodeAt` returns
at most `0xFFFF`), `seedFromString` agrees with the spec-worded fold
`fnv1aSpec`, and its result is below `2 ^ 32`. -/
theorem claim_C4 (codes : List ℕ) (hc : ∀ c ∈ codes, c < 2 ^ 32) :
    seedFromString codes = fnv1aSpec codes ∧ seedFromString codes < 2 ^ 32 :=
  ⟨seedFromString_eq_spec codes hc, seedFromString_lt codes⟩

/-- **C4, witness**: the hash of the code list of `"hi"`. -/
theorem claim_C4_witness :
    seedFromString [104, 105] = fnv1aSpec [104, 105] ∧
      seedFromString [104, 105] < 2 ^ 32 :=
  claim_C4 [104, 105] (by decide)

/-! ## Claim C9 — `simplifyLoop` never drops below 6 points -/

theorem eraseIdx_of_length_le {α : Type} (l : List α) (i : ℕ) (h : l.length ≤ i) :
    l.eraseIdx i = l := by
  induction l generalizing i with
  | nil => simp [List.eraseIdx]
  | cons x r ih =>
      cases i with
      | zero => simp at h
      | succ j =>
          simp only [List.eraseIdx]
          rw [ih j (by simpa using h)]

theorem sdf_simplifyGo_length (minEdge collinearEps : ℝ) :
    ∀ (fuel : ℕ) (l : List Pt), 6 ≤ l.length →
      6 ≤ (Sdf.simplifyGo minEdge collinearEps fuel l).length := by
  intro fuel
  induction fuel with
  | zero => intro l h; simpa [Sdf.simplifyGo] using h
  | succ n ih =>
      intro l h
      rw [Sdf.simplifyGo]
      by_cases h6 : 6 < l.length
      · rw [if_pos h6]
        cases hf : Sdf.findRemovable l minEdge collinearEps with
        | none => exact h
        | some i =>
            apply ih
            by_cases hi : i < l.length
            · have := List.length_eraseIdx_add_one hi
              omega
            · rw [eraseIdx_of_length_le l i (by omega)]
              exact h
      · rw [if_neg h6]; exact h

/-- **C9**: for every loop with at least 6 points and every threshold pair,
`simplifyLoop` returns a loop with at least 6 points (each removal step
requires the length to still exceed 6), and a loop with fewer than 6 points
is returned unchanged. -/
theorem claim_C9 (points : List Pt) (minEdge collinearEps : ℝ) :
    (6 ≤ points.length → 6 ≤ (Sdf.simplifyLoop points minEdge collinearEps).length) ∧
    (points.length < 6 → Sdf.simplifyLoop points minEdge collinearEps = points) := by
  constructor
  · intro h
    rw [Sdf.simplifyLoop, if_neg (by omega)]
    exact sdf_simplifyGo_length minEdge collinearEps points.length points h
  · intro h
    rw [Sdf.simplifyLoop, if_pos h]

/-- **C9, witness**: a concrete hexagonal loop keeps at least 6 points, and a
concrete triangle is returned unchanged. -/
theorem claim_C9_witness :
    6 ≤ (Sdf.simplifyLoop
        [((0 : ℝ), (0 : ℝ)), (1, 0), (2, 0), (2, 1), (1, 1), (0, 1)] 1 1).length ∧
    Sdf.simplifyLoop [((0 : ℝ), (0 : ℝ)), (1, 0), (2, 0)] 1 1
      = [((0 : ℝ), (0 : ℝ)), (1, 0), (2, 0)] :=
  ⟨(claim_C9 _ 1 1).1 (by norm_num),
   (claim_C9 _ 1 1).2 (by norm_num)⟩

/-! ## Claim C10 — `distancePointToSegment` totality and correctness -/

/-- **C10, amended**: `distancePointToSegment` always returns a non-negative
real; when the squared segment length is at most `1e-12` the division is
skipped and the distance *to endpoint `a`* is returned (which for a tiny but
nonzero segment can exceed the true distance to the nearest segment point);
when the squared length exceeds `1e-12`, the result is exactly the Euclidean
distance to the nearest point of the segment: it is a lower bound over all
parameters `s ∈ [0,1]` and is attained at the clamped projection
parameter. -/
theorem claim_C10_amended (p a b : Pt) :
    0 ≤ Sdf.distancePointToSegment p a b ∧
    (Sdf.ab2Of a b ≤ 1e-12 →
      Sdf.distancePointToSegment p a b = Sdf.ptDist p a) ∧
    (1e-12 < Sdf.ab2Of a b →
      (∀ s, 0 ≤ s → s ≤ 1 →
        Sdf.distancePointToSegment p a b ≤ Sdf.ptDist p (Sdf.segPoint a b s)) ∧
      (∃ s, 0 ≤ s ∧ s ≤ 1 ∧
        Sdf.distancePointToSegment p a b = Sdf.ptDist p (Sdf.segPoint a b s))) := by
  refine ⟨?_, ?_, ?_⟩
  · simp only [Sdf.distancePointToSegment]
    split
    · exact Real.sqrt_nonneg _
    · exact Real.sqrt_nonneg _
  · intro h
    rw [Sdf.ab2Of] at h
    simp only [Sdf.distancePointToSegment, Sdf.ptDist]
    rw [if_pos h]
  · intro h
    rw [Sdf.ab2Of] at h
    have hD : (0 : ℝ) < (b.1 - a.1) * (b.1 - a.1) + (b.2 - a.2) * (b.2 - a.2) := by
      calc (0 : ℝ) < 1e-12 := by norm_num
        _ < _ := h
    constructor
    · intro s hs0 hs1
      simp only [Sdf.distancePointToSegment, Sdf.ptDist, Sdf.segPoint, Sdf.clampR]
      rw [if_neg (not_le.mpr h)]
      apply Real.sqrt_le_sqrt
      set ts := ((p.1 - a.1) * (b.1 - a.1) + (p.2 - a.2) * (b.2 - a.2))
          / ((b.1 - a.1) * (b.1 - a.1) + (b.2 - a.2) * (b.2 - a.2)) with hts
      have hnum : (p.1 - a.1) * (b.1 - a.1) + (p.2 - a.2) * (b.2 - a.2)
          = ts * ((b.1 - a.1) * (b.1 - a.1) + (b.2 - a.2) * (b.2 - a.2)) := by
        rw [hts]
        field_simp
      rcases lt_or_le ts 0 with hlt | hge
      · rw [min_eq_right (by linarith : ts ≤ 1), max_eq_left (by linarith : ts ≤ 0)]
        have key : 0 ≤ s * (((b.1 - a.1) * (b.1 - a.1) + (b.2 - a.2) * (b.2 - a.2))
            * (s - 2 * ts)) :=
          mul_nonneg hs0 (mul_nonneg hD.le (by linarith))
        nlinarith [key, hnum]
      · rcases le_or_lt ts 1 with hle1 | hgt1
        · rw [min_eq_right hle1, max_eq_right hge]
          nlinarith [mul_nonneg hD.le (sq_nonneg (s - ts)), hnum]
        · rw [min_eq_left hgt1.le, max_eq_right (by norm_num : (0:ℝ) ≤ 1)]
          have key : 0 ≤ ((b.1 - a.1) * (b.1 - a.1) + (b.2 - a.2) * (b.2 - a.2))
              * ((1 - s) * (2 * ts - s - 1)) :=
            mul_nonneg hD.le (mul_nonneg (by linarith) (by linarith))
          nlinarith [key, hnum]
    · simp only [Sdf.distancePointToSegment, Sdf.ptDist, Sdf.segPoint, Sdf.clampR]
      rw [if_neg (not_le.mpr h)]
      refine ⟨_, le_max_left _ _, max_le (by norm_num) (min_le_left _ _), rfl⟩

/-- **C10, witness**: the nearest-distance bound at `p = (0,1)`,
`a = (0,0)`, `b = (1,0)`, `s = 1/2`, and the degenerate-branch equation at
the zero-length segment `a = b = (0,0)`. -/
theorem claim_C10_witness :
    Sdf.distancePointToSegment ((0 : ℝ), (1 : ℝ)) (0, 0) (1, 0)
        ≤ Sdf.ptDist ((0 : ℝ), (1 : ℝ)) (Sdf.segPoint (0, 0) (1, 0) (1 / 2)) ∧
    Sdf.distancePointToSegment ((3 : ℝ), (4 : ℝ)) (0, 0) (0, 0)
        = Sdf.ptDist ((3 : ℝ), (4 : ℝ)) (0, 0) :=
  ⟨((claim_C10_amended _ _ _).2.2 (by norm_num [Sdf.ab2Of])).1 (1 / 2) (by norm_num)
      (by norm_num),
   (claim_C10_amended _ _ _).2.1 (by norm_num [Sdf.ab2Of])⟩

/-- **C10, counterexample**: for the tiny but nonzero segment from `(0,0)` to
`(1e-7, 0)` (squared length `1e-14 ≤ 1e-12`) and the query point `(1e-7, 0)`,
which lies *on* the segment (parameter `1`), the function returns the
distance to endpoint `a`, namely `1e-7 > 0` — not the distance to the nearest
point of the segment, which is `0`.  So "in all cases the result equals the
Euclidean distance to the nearest point of the segment" fails as stated. -/
theorem claim_C10_counterexample :
    Sdf.ptDist ((1e-7 : ℝ), 0) (Sdf.segPoint (0, 0) (1e-7, 0) 1) = 0 ∧
    Sdf.distancePointToSegment ((1e-7 : ℝ), 0) (0, 0) (1e-7, 0) = 1e-7 ∧
    (0 : ℝ) < 1e-7 := by
  refine ⟨?_, ?_, by norm_num⟩
  · simp only [Sdf.ptDist, Sdf.segPoint]
    norm_num [Real.sqrt_zero]
  · simp only [Sdf.distancePointToSegment]
    rw [if_pos (by norm_num :
      ((1e-7 : ℝ) - 0) * ((1e-7 : ℝ) - 0) + ((0 : ℝ) - 0) * ((0 : ℝ) - 0) ≤ 1e-12)]
    rw [show ((1e-7 : ℝ) - 0) ^ 2 + ((0 : ℝ) - 0) ^ 2 = ((1e-7 : ℝ)) ^ 2 by norm_num]
    exact Real.sqrt_sq (by norm_num)

/-! ## Claim C6 — normalization exactness -/

theorem maxList_map_mul (l : List ℚ) (k : ℚ) (hk : 0 ≤ k) :
    Normalize.maxList (l.map (· * k)) = Normalize.maxList l * k := by
  cases l with
  | nil => simp [Normalize.maxList]
  | cons x r =>
      simp only [List.map_cons, Normalize.maxList]
      induction r generalizing x with
      | nil => simp
      | cons y r ih =>
          simp only [List.map_cons, List.foldl_cons]
          rw [← max_mul_of_nonneg x y hk]
          exact ih (max x y)

theorem minList_map_mul (l : List ℚ) (k : ℚ) (hk : 0 ≤ k) :
    Normalize.minList (l.map (· * k)) = Normalize.minList l * k := by
  cases l with
  | nil => simp [Normalize.minList]
  | cons x r =>
      simp only [List.map_cons, Normalize.minList]
      induction r generalizing x with
      | nil => simp
      | cons y r ih =>
          simp only [List.map_cons, List.foldl_cons]
          rw [← min_mul_of_nonneg x y hk]
          exact ih (min x y)

/-- **C6, amended**: for every merged vertex list with a nondegenerate planar
bounding diameter (at least the `1e-6` guard) the normalized mesh satisfies
`max(bbox.x-extent, bbox.y-extent) = max(1, sizeInches||3) × 25.4` — i.e. the
requested diameter only after `sizeInches` is clamped below at `1` (and `0`
replaced by the default `3`) — and the X and Y coordinates are scaled by one
single uniform positive factor. -/
theorem claim_C6_amended (verts : List Normalize.V3) (sizeInches : ℚ)
    (hext : 1 / 1000000 ≤ Normalize.maxExtentXY verts) :
    Normalize.maxExtentXY (Normalize.normalizeMesh verts sizeInches)
        = Normalize.targetDiameterMm sizeInches ∧
    ∃ k : ℚ, 0 < k ∧
      (Normalize.normalizeMesh verts sizeInches).map (fun v => (v.1, v.2.1))
        = verts.map (fun v => (v.1 * k, v.2.1 * k)) := by
  have hext0 : (0 : ℚ) < Normalize.maxExtentXY verts :=
    lt_of_lt_of_le (by norm_num) hext
  have htgt : 0 < Normalize.targetDiameterMm sizeInches := by
    rw [Normalize.targetDiameterMm]
    have h1 : (1 : ℚ) ≤ max 1 (if sizeInches = 0 then 3 else sizeInches) := le_max_left _ _
    nlinarith
  have hbase : max (Normalize.maxExtentXY verts) (1 / 1000000)
      = Normalize.maxExtentXY verts := max_eq_left hext
  set k := Normalize.targetDiameterMm sizeInches / Normalize.maxExtentXY verts with hk
  have hkpos : 0 < k := div_pos htgt hext0
  have hxproj : (Normalize.normalizeMesh verts sizeInches).map (fun v => v.1)
      = (verts.map (fun v => v.1)).map (· * k) := by
    simp only [Normalize.normalizeMesh, hbase, List.map_map]
    rfl
  have hyproj : (Normalize.normalizeMesh verts sizeInches).map (fun v => v.2.1)
      = (verts.map (fun v => v.2.1)).map (· * k) := by
    simp only [Normalize.normalizeMesh, hbase, List.map_map]
    rfl
  have hsx : Normalize.sizeX (Normalize.normalizeMesh verts sizeInches)
      = Normalize.sizeX verts * k := by
    rw [Normalize.sizeX, Normalize.sizeX, hxproj, maxList_map_mul _ _ hkpos.le,
      minList_map_mul _ _ hkpos.le]
    ring
  have hsy : Normalize.sizeY (Normalize.normalizeMesh verts sizeInches)
      = Normalize.sizeY verts * k := by
    rw [Normalize.sizeY, Normalize.sizeY, hyproj, maxList_map_mul _ _ hkpos.le,
      minList_map_mul _ _ hkpos.le]
    ring
  constructor
  · rw [Normalize.maxExtentXY, hsx, hsy, ← max_mul_of_nonneg _ _ hkpos.le]
    rw [show max (Normalize.sizeX verts) (Normalize.sizeY verts)
        = Normalize.maxExtentXY verts from rfl, hk]
    field_simp
  · refine ⟨k, hkpos, ?_⟩
    simp only [Normalize.normalizeMesh, hbase, List.map_map]
    rfl

/-- **C6, witness**: the two-vertex mesh `{(0,0,0), (2,1,1)}` at
`sizeInches = 2` normalizes to planar diameter `2 × 25.4`. -/
theorem claim_C6_witness :
    Normalize.maxExtentXY
        (Normalize.normalizeMesh [((0 : ℚ), (0 : ℚ), (0 : ℚ)), (2, 1, 1)] 2)
      = Normalize.targetDiameterMm 2 :=
  (claim_C6_amended _ _ (by norm_num [Normalize.maxExtentXY, Normalize.sizeX,
    Normalize.sizeY, Normalize.maxList, Normalize.minList])).1

/-- **C6, counterexample**: at `sizeInches = 1/2 > 0` the claim's equation
`max extent = sizeInches × 25.4` fails: `Math.max(1, sizeInches)` clamps the
half-inch request up to one inch, so the normalized diameter is `25.4` mm,
not `12.7` mm. -/
theorem claim_C6_counterexample :
    Normalize.maxExtentXY
        (Normalize.normalizeMesh [((0 : ℚ), (0 : ℚ), (0 : ℚ)), (2, 1, 1)] (1 / 2))
      = 254 / 10 ∧
    (254 / 10 : ℚ) ≠ (1 / 2) * (254 / 10) := by
  constructor
  · norm_num [Normalize.normalizeMesh, Normalize.maxExtentXY, Normalize.sizeX,
      Normalize.sizeY, Normalize.sizeZ, Normalize.maxList, Normalize.minList,
      Normalize.targetDiameterMm]
  · norm_num

/-! ## Claim C3 — six-fold rotational symmetry -/

theorem rotatePoint_rotatePoint (p : Pt) (a b : ℝ) :
    rotatePoint (rotatePoint p a) b = rotatePoint p (a + b) := by
  simp only [rotatePoint, Real.cos_add, Real.sin_add, Prod.mk.injEq]
  constructor <;> ring

theorem rotatePoint_zero (p : Pt) : rotatePoint p 0 = p := by
  simp [rotatePoint]

theorem rotatePoint_two_pi (p : Pt) : rotatePoint p (2 * Real.pi) = p := by
  simp [rotatePoint, Real.cos_two_pi, Real.sin_two_pi]

theorem rotateSeg_rotateSeg (s : Seg) (a b : ℝ) :
    rotateSeg (rotateSeg s a) b = rotateSeg s (a + b) := by
  simp [rotateSeg, rotatePoint_rotatePoint]

theorem rotateSeg_zero (s : Seg) : rotateSeg s 0 = s := by
  simp [rotateSeg, rotatePoint_zero]

theorem rotateSeg_two_pi (s : Seg) : rotateSeg s (2 * Real.pi) = s := by
  simp [rotateSeg, rotatePoint_two_pi]

/-- Rotating every segment of a six-fold replicated arm by `60°` permutes the
six blocks (block `i` becomes block `i+1`, block `5` wraps to block `0` since
a `360°` rotation is the identity in exact real arithmetic), so the multiset
of segments is unchanged. -/
theorem replicate6_rotate_invariant (arm : List Seg) :
    (((replicate6 arm).map (fun s => rotateSeg s (Real.pi / 3))) : Multiset Seg)
      = (replicate6 arm : Multiset Seg) := by
  have hcomp : ∀ (θ : ℝ),
      ((arm.map fun s => rotateSeg s θ).map (fun s => rotateSeg s (Real.pi / 3)))
        = arm.map fun s => rotateSeg s (θ + Real.pi / 3) := by
    intro θ
    rw [List.map_map]
    refine List.map_congr_left fun s _ => ?_
    simp [Function.comp, rotateSeg_rotateSeg]
  have hang : ∀ (a b : ℝ), a = b →
      (arm.map fun s => rotateSeg s a) = arm.map fun s => rotateSeg s b := by
    intro a b h
    rw [h]
  have hid0 : (arm.map fun s => rotateSeg s ((0 : ℕ) * Real.pi / 3)) = arm := by
    rw [hang ((0 : ℕ) * Real.pi / 3) 0 (by push_cast; ring)]
    refine (List.map_congr_left fun s _ => rotateSeg_zero s).trans (List.map_id arm)
  have hid6 : (arm.map fun s => rotateSeg s ((5 : ℕ) * Real.pi / 3 + Real.pi / 3)) = arm := by
    rw [hang ((5 : ℕ) * Real.pi / 3 + Real.pi / 3) (2 * Real.pi) (by push_cast; ring)]
    refine (List.map_congr_left fun s _ => rotateSeg_two_pi s).trans (List.map_id arm)
  rw [replicate6, show List.range 6 = [0, 1, 2, 3, 4, 5] from rfl]
  simp only [List.flatMap_cons, List.flatMap_nil, List.append_nil, List.map_append]
  rw [hcomp, hcomp, hcomp, hcomp, hcomp, hcomp]
  rw [hang ((0 : ℕ) * Real.pi / 3 + Real.pi / 3) ((1 : ℕ) * Real.pi / 3) (by push_cast; ring)]
  rw [hang ((1 : ℕ) * Real.pi / 3 + Real.pi / 3) ((2 : ℕ) * Real.pi / 3) (by push_cast; ring)]
  rw [hang ((2 : ℕ) * Real.pi / 3 + Real.pi / 3) ((3 : ℕ) * Real.pi / 3) (by push_cast; ring)]
  rw [hang ((3 : ℕ) * Real.pi / 3 + Real.pi / 3) ((4 : ℕ) * Real.pi / 3) (by push_cast; ring)]
  rw [hang ((4 : ℕ) * Real.pi / 3 + Real.pi / 3) ((5 : ℕ) * Real.pi / 3) (by push_cast; ring)]
  rw [hid6, hid0]
  simp only [← Multiset.coe_add]
  abel

/-- **C3**: for every rand stream, complexity and thickness, rotating the full
output segment set of either `buildSnowflake2D` variant by `60°` about the
origin yields exactly the same unordered collection of segments (stated as
multiset equality, which implies set equality), under exact real
arithmetic. -/
theorem claim_C3 (stream : ℕ → ℝ) (complexity thickness : ℝ) :
    (((Geo1.buildSnowflake2D stream complexity thickness).map
        (fun s => rotateSeg s (Real.pi / 3))) : Multiset Seg)
      = (Geo1.buildSnowflake2D stream complexity thickness : Multiset Seg) ∧
    (((Geo0.buildSnowflake2D stream complexity thickness).map
        (fun s => rotateSeg s (Real.pi / 3))) : Multiset Seg)
      = (Geo0.buildSnowflake2D stream complexity thickness : Multiset Seg) :=
  ⟨replicate6_rotate_invariant _, replicate6_rotate_invariant _⟩

/-! ## Claim C2 — `segmentsToPolygon` totality and fallback -/

theorem fallbackPolygon_length (segments : List Seg) :
    (Sdf.fallbackPolygon segments).length = 24 := by
  simp only [Sdf.fallbackPolygon, List.length_map, List.length_range]

/-- **C2**: `segmentsToPolygon` always returns a polygon with at least 8
points; the synthetic fallback polygon always has exactly 24 points; an empty
segment list returns the fallback immediately, and on every nonempty input
each failure condition (fewer than 3 contour segments, no closed loop, or a
refined best loop of fewer than 8 points) returns the fallback 24-gon sized
to the segment bounding box. -/
theorem claim_C2 (segments : List Seg) (gr si rm td : ℝ) :
    8 ≤ (Sdf.segmentsToPolygon segments gr si rm td).length ∧
    (Sdf.fallbackPolygon segments).length = 24 ∧
    (segments = [] → Sdf.segmentsToPolygon segments gr si rm td = Sdf.fallbackPolygon []) ∧
    (segments ≠ [] →
      ((Sdf.contourSegs (Sdf.gridOf segments gr rm td) segments).length < 3 →
        Sdf.segmentsToPolygon segments gr si rm td = Sdf.fallbackPolygon segments) ∧
      (Sdf.buildLoopsFromSegments
          (Sdf.contourSegs (Sdf.gridOf segments gr rm td) segments) = [] →
        Sdf.segmentsToPolygon segments gr si rm td = Sdf.fallbackPolygon segments) ∧
      ((Sdf.simplifyLoop
          (Sdf.chaikin
            (Sdf.bestLoop (Sdf.buildLoopsFromSegments
              (Sdf.contourSegs (Sdf.gridOf segments gr rm td) segments)))
            (Sdf.smoothIters si) 0.12)
          ((Sdf.gridOf segments gr rm td).cellSize * 0.22) 0.012).length < 8 →
        Sdf.segmentsToPolygon segments gr si rm td = Sdf.fallbackPolygon segments)) := by
  by_cases hseg : segments = []
  · subst hseg
    have hstp : Sdf.segmentsToPolygon [] gr si rm td = Sdf.fallbackPolygon [] := by
      rw [Sdf.segmentsToPolygon, if_pos rfl]
    refine ⟨?_, fallbackPolygon_length _, fun _ => hstp, fun hne => absurd rfl hne⟩
    rw [hstp, fallbackPolygon_length]
    norm_num
  · simp only [Sdf.segmentsToPolygon]
    rw [if_neg hseg]
    by_cases h3 : (Sdf.contourSegs (Sdf.gridOf segments gr rm td) segments).length < 3
    · rw [if_pos h3]
      exact ⟨by rw [fallbackPolygon_length]; norm_num, fallbackPolygon_length _,
        fun he => absurd he hseg, fun _ => ⟨fun _ => rfl, fun _ => rfl, fun _ => rfl⟩⟩
    · rw [if_neg h3]
      by_cases hlp : Sdf.buildLoopsFromSegments
          (Sdf.contourSegs (Sdf.gridOf segments gr rm td) segments) = []
      · rw [if_pos hlp]
        exact ⟨by rw [fallbackPolygon_length]; norm_num, fallbackPolygon_length _,
          fun he => absurd he hseg,
          fun _ => ⟨fun h => absurd h h3, fun _ => rfl, fun _ => rfl⟩⟩
      · rw [if_neg hlp]
        by_cases h8 : (Sdf.simplifyLoop
            (Sdf.chaikin
              (Sdf.bestLoop (Sdf.buildLoopsFromSegments
                (Sdf.contourSegs (Sdf.gridOf segments gr rm td) segments)))
              (Sdf.smoothIters si) 0.12)
            ((Sdf.gridOf segments gr rm td).cellSize * 0.22) 0.012).length < 8
        · rw [if_pos h8]
          exact ⟨by rw [fallbackPolygon_length]; norm_num, fallbackPolygon_length _,
            fun he => absurd he hseg,
            fun _ => ⟨fun h => absurd h h3, fun h => absurd h hlp, fun _ => rfl⟩⟩
        · rw [if_neg h8]
          refine ⟨?_, fallbackPolygon_length _, fun he => absurd he hseg,
            fun _ => ⟨fun h => absurd h h3, fun h => absurd h hlp,
              fun h => absurd h h8⟩⟩
          split <;> split <;>
            (try simp only [List.length_append, List.length_reverse, List.length_cons,
              List.length_nil]) <;> omega

/-- **C2, witness**: the empty segment list at the default options returns
the fallback polygon, which has at least 8 points. -/
theorem claim_C2_witness :
    Sdf.segmentsToPolygon [] 200 2 2.5 110 = Sdf.fallbackPolygon [] ∧
    8 ≤ (Sdf.segmentsToPolygon [] 200 2 2.5 110).length :=
  ⟨(claim_C2 [] 200 2 2.5 110).2.2.1 rfl, (claim_C2 [] 200 2 2.5 110).1⟩

/-! ## Claim C8 — non-negative signed area of the returned polygon -/

theorem sum_range_cyclic_shift (n : ℕ) (g : ℕ → ℝ) :
    ∑ i ∈ Finset.range n, g ((i + 1) % n) = ∑ i ∈ Finset.range n, g i := by
  rcases Nat.eq_zero_or_pos n with h0 | hn
  · subst h0
    simp
  · refine Finset.sum_nbij' (fun i => (i + 1) % n) (fun i => (i + (n - 1)) % n)
      ?_ ?_ ?_ ?_ ?_
    · intro a ha
      simp only [Finset.mem_range] at *
      exact Nat.mod_lt _ hn
    · intro a ha
      simp only [Finset.mem_range] at *
      exact Nat.mod_lt _ hn
    · intro a ha
      simp only [Finset.mem_range] at ha
      show ((a + 1) % n + (n - 1)) % n = a
      rw [Nat.mod_add_mod, show a + 1 + (n - 1) = a + n by omega, Nat.add_mod_right,
        Nat.mod_eq_of_lt ha]
    · intro a ha
      simp only [Finset.mem_range] at ha
      show ((a + (n - 1)) % n + 1) % n = a
      rw [Nat.mod_add_mod, show a + (n - 1) + 1 = a + n by omega, Nat.add_mod_right,
        Nat.mod_eq_of_lt ha]
    · intro a _
      rfl

theorem getD_map_range {α : Type} (n : ℕ) (f : ℕ → α) (i : ℕ) (h : i < n) (d : α) :
    ((List.range n).map f).getD i d = f i := by
  rw [List.getD_eq_getElem _ d (by simpa using h)]
  simp

theorem polygonArea_map_range (n : ℕ) (hn : 3 ≤ n) (f : ℕ → Pt) :
    Sdf.polygonArea ((List.range n).map f)
      = (∑ i ∈ Finset.range n,
          ((f i).1 * (f ((i + 1) % n)).2 - (f ((i + 1) % n)).1 * (f i).2)) * 0.5 := by
  rw [Sdf.polygonArea]
  simp only [List.length_map, List.length_range]
  rw [if_neg (by omega)]
  congr 1
  refine Finset.sum_congr rfl ?_
  intro i hi
  simp only [Finset.mem_range] at hi
  rw [getD_map_range n f i hi, getD_map_range n f _ (Nat.mod_lt _ (by omega))]


theorem fallback_term_sin (i : ℕ) (hi : i < 24) :
    Real.cos (((i : ℝ) / 24) * Real.pi * 2)
        * Real.sin (((((i + 1) % 24 : ℕ)) : ℝ) / 24 * Real.pi * 2)
      - Real.cos (((((i + 1) % 24 : ℕ)) : ℝ) / 24 * Real.pi * 2)
        * Real.sin (((i : ℝ) / 24) * Real.pi * 2)
      = Real.sin (Real.pi / 12) := by
  by_cases h23 : i = 23
  · subst h23
    rw [show ((23 + 1) % 24 : ℕ) = 0 from rfl]
    rw [show Real.cos (((23 : ℕ) : ℝ) / 24 * Real.pi * 2)
          * Real.sin (((0 : ℕ) : ℝ) / 24 * Real.pi * 2)
        - Real.cos (((0 : ℕ) : ℝ) / 24 * Real.pi * 2)
          * Real.sin (((23 : ℕ) : ℝ) / 24 * Real.pi * 2)
      = Real.sin (((0 : ℕ) : ℝ) / 24 * Real.pi * 2)
          * Real.cos (((23 : ℕ) : ℝ) / 24 * Real.pi * 2)
        - Real.cos (((0 : ℕ) : ℝ) / 24 * Real.pi * 2)
          * Real.sin (((23 : ℕ) : ℝ) / 24 * Real.pi * 2) by ring]
    rw [← Real.sin_sub]
    rw [show ((0 : ℕ) : ℝ) / 24 * Real.pi * 2 - ((23 : ℕ) : ℝ) / 24 * Real.pi * 2
        = Real.pi / 12 - 2 * Real.pi by push_cast; ring]
    exact Real.sin_sub_two_pi _
  · have hlt : i + 1 < 24 := by omega
    rw [Nat.mod_eq_of_lt hlt]
    rw [show Real.cos (((i : ℕ) : ℝ) / 24 * Real.pi * 2)
          * Real.sin (((i + 1 : ℕ) : ℝ) / 24 * Real.pi * 2)
        - Real.cos (((i + 1 : ℕ) : ℝ) / 24 * Real.pi * 2)
          * Real.sin (((i : ℕ) : ℝ) / 24 * Real.pi * 2)
      = Real.sin (((i + 1 : ℕ) : ℝ) / 24 * Real.pi * 2)
          * Real.cos (((i : ℕ) : ℝ) / 24 * Real.pi * 2)
        - Real.cos (((i + 1 : ℕ) : ℝ) / 24 * Real.pi * 2)
          * Real.sin (((i : ℕ) : ℝ) / 24 * Real.pi * 2) by ring]
    rw [← Real.sin_sub]
    congr 1
    push_cast
    ring

theorem polygonArea_fallback_nonneg (segments : List Seg) :
    0 ≤ Sdf.polygonArea (Sdf.fallbackPolygon segments) := by
  simp only [Sdf.fallbackPolygon]
  rw [polygonArea_map_range 24 (by norm_num)]
  have hs : 0 ≤ Real.sin (Real.pi / 12) :=
    (Real.sin_pos_of_pos_of_lt_pi (by positivity)
      (by linarith [Real.pi_pos])).le
  set cx := (( Sdf.boundsFromSegments segments).minX
      + (Sdf.boundsFromSegments segments).maxX) * 0.5 with hcx
  set cy := ((Sdf.boundsFromSegments segments).minY
      + (Sdf.boundsFromSegments segments).maxY) * 0.5 with hcy
  set r := max (max ((Sdf.boundsFromSegments segments).maxX
        - (Sdf.boundsFromSegments segments).minX)
      ((Sdf.boundsFromSegments segments).maxY
        - (Sdf.boundsFromSegments segments).minY)) 1 * 0.5 * 1.05 with hr
  have hsplit : ∀ i ∈ Finset.range 24,
      ((cx + Real.cos (((i : ℝ) / 24) * Real.pi * 2) * r)
          * (cy + Real.sin (((((i + 1) % 24 : ℕ)) : ℝ) / 24 * Real.pi * 2) * r)
        - (cx + Real.cos (((((i + 1) % 24 : ℕ)) : ℝ) / 24 * Real.pi * 2) * r)
          * (cy + Real.sin (((i : ℝ) / 24) * Real.pi * 2) * r))
      = cx * r * (Real.sin (((((i + 1) % 24 : ℕ)) : ℝ) / 24 * Real.pi * 2)
            - Real.sin (((i : ℝ) / 24) * Real.pi * 2))
        + cy * r * (Real.cos (((i : ℝ) / 24) * Real.pi * 2)
            - Real.cos (((((i + 1) % 24 : ℕ)) : ℝ) / 24 * Real.pi * 2))
        + r ^ 2 * (Real.cos (((i : ℝ) / 24) * Real.pi * 2)
              * Real.sin (((((i + 1) % 24 : ℕ)) : ℝ) / 24 * Real.pi * 2)
            - Real.cos (((((i + 1) % 24 : ℕ)) : ℝ) / 24 * Real.pi * 2)
              * Real.sin (((i : ℝ) / 24) * Real.pi * 2)) := by
    intro i _
    ring
  rw [Finset.sum_congr rfl hsplit]
  rw [Finset.sum_add_distrib, Finset.sum_add_distrib]
  rw [← Finset.mul_sum, ← Finset.mul_sum, Finset.sum_sub_distrib, Finset.sum_sub_distrib]
  rw [sum_range_cyclic_shift 24 (fun k => Real.sin (((k : ℕ) : ℝ) / 24 * Real.pi * 2))]
  rw [show (∑ i ∈ Finset.range 24, Real.cos (((i : ℝ) / 24) * Real.pi * 2))
      - ∑ i ∈ Finset.range 24,
          Real.cos (((((i + 1) % 24 : ℕ)) : ℝ) / 24 * Real.pi * 2) = 0 by
    rw [sum_range_cyclic_shift 24 (fun k => Real.cos (((k : ℕ) : ℝ) / 24 * Real.pi * 2))]
    ring]
  simp only [sub_self, mul_zero, zero_add]
  have hterm : ∀ i ∈ Finset.range 24,
      r ^ 2 * (Real.cos (((i : ℝ) / 24) * Real.pi * 2)
          * Real.sin (((((i + 1) % 24 : ℕ)) : ℝ) / 24 * Real.pi * 2)
        - Real.cos (((((i + 1) % 24 : ℕ)) : ℝ) / 24 * Real.pi * 2)
          * Real.sin (((i : ℝ) / 24) * Real.pi * 2))
      = r ^ 2 * Real.sin (Real.pi / 12) := by
    intro i hi
    simp only [Finset.mem_range] at hi
    rw [fallback_term_sin i hi]
  rw [Finset.sum_congr rfl hterm, Finset.sum_const]
  have : (0 : ℝ) ≤ r ^ 2 * Real.sin (Real.pi / 12) :=
    mul_nonneg (sq_nonneg r) hs
  positivity

theorem getD_reverse (l : List Pt) (i : ℕ) (h : i < l.length) (d : Pt) :
    l.reverse.getD i d = l.getD (l.length - 1 - i) d := by
  rw [List.getD_eq_getElem _ d (by simpa using h), List.getD_eq_getElem _ d (by omega)]
  exact List.getElem_reverse _

theorem polygonArea_reverse (l : List Pt) :
    Sdf.polygonArea l.reverse = -Sdf.polygonArea l := by
  by_cases h3 : l.length < 3
  · rw [Sdf.polygonArea, Sdf.polygonArea, if_pos (by simpa using h3), if_pos h3]
    ring
  · push_neg at h3
    rw [Sdf.polygonArea, Sdf.polygonArea,
      if_neg (by simp only [List.length_reverse]; omega), if_neg (by omega)]
    simp only [List.length_reverse]
    rw [← neg_mul]
    congr 1
    have hmod : ∀ i, i < l.length → (i + 1) % l.length
        = if i = l.length - 1 then 0 else i + 1 := by
      intro i hi
      split
      · rename_i hh
        subst hh
        rw [show l.length - 1 + 1 = l.length by omega, Nat.mod_self]
      · exact Nat.mod_eq_of_lt (by omega)
    have hpoint : ∀ i ∈ Finset.range l.length,
        ((l.reverse.getD i (0, 0)).1 * (l.reverse.getD ((i + 1) % l.length) (0, 0)).2
          - (l.reverse.getD ((i + 1) % l.length) (0, 0)).1
            * (l.reverse.getD i (0, 0)).2)
        = -(fun j => (l.getD j (0, 0)).1 * (l.getD ((j + 1) % l.length) (0, 0)).2
            - (l.getD ((j + 1) % l.length) (0, 0)).1 * (l.getD j (0, 0)).2)
          (l.length - 1 - ((i + 1) % l.length)) := by
      intro i hi
      simp only [Finset.mem_range] at hi
      have hj' : (i + 1) % l.length < l.length := Nat.mod_lt _ (by omega)
      rw [getD_reverse l i hi, getD_reverse l _ hj']
      simp only
      have hback : (l.length - 1 - ((i + 1) % l.length) + 1) % l.length
          = l.length - 1 - i := by
        rw [hmod i hi]
        split
        · rename_i hh
          subst hh
          rw [show l.length - 1 - 0 + 1 = l.length by omega, Nat.mod_self]
          omega
        · rename_i hh
          rw [show l.length - 1 - (i + 1) + 1 = l.length - 1 - i by omega]
          exact Nat.mod_eq_of_lt (by omega)
      rw [hback]
      ring
    rw [Finset.sum_congr rfl hpoint]
    rw [Finset.sum_neg_distrib]
    congr 1
    refine Finset.sum_nbij' (fun i => l.length - 1 - ((i + 1) % l.length))
      (fun j => l.length - 1 - ((j + 1) % l.length)) ?_ ?_ ?_ ?_ ?_
    · intro a ha
      simp only [Finset.mem_range] at *
      omega
    · intro a ha
      simp only [Finset.mem_range] at *
      omega
    · intro a ha
      simp only [Finset.mem_range] at ha
      show l.length - 1 - ((l.length - 1 - ((a + 1) % l.length) + 1) % l.length) = a
      have h1 : (a + 1) % l.length = if a = l.length - 1 then 0 else a + 1 := by
        split
        · rename_i hh
          subst hh
          rw [show l.length - 1 + 1 = l.length by omega, Nat.mod_self]
        · exact Nat.mod_eq_of_lt (by omega)
      rw [h1]
      split
      · rename_i hh
        subst hh
        rw [show l.length - 1 - 0 + 1 = l.length by omega, Nat.mod_self]
        omega
      · rename_i hh
        rw [show l.length - 1 - (a + 1) + 1 = l.length - 1 - a by omega,
          Nat.mod_eq_of_lt (by omega)]
        omega
    · intro a ha
      simp only [Finset.mem_range] at ha
      show l.length - 1 - ((l.length - 1 - ((a + 1) % l.length) + 1) % l.length) = a
      have h1 : (a + 1) % l.length = if a = l.length - 1 then 0 else a + 1 := by
        split
        · rename_i hh
          subst hh
          rw [show l.length - 1 + 1 = l.length by omega, Nat.mod_self]
        · exact Nat.mod_eq_of_lt (by omega)
      rw [h1]
      split
      · rename_i hh
        subst hh
        rw [show l.length - 1 - 0 + 1 = l.length by omega, Nat.mod_self]
        omega
      · rename_i hh
        rw [show l.length - 1 - (a + 1) + 1 = l.length - 1 - a by omega,
          Nat.mod_eq_of_lt (by omega)]
        omega
    · intro a _
      rfl


theorem getD_append_lt (l : List Pt) (c : Pt) (i : ℕ) (h : i < l.length) (d : Pt) :
    (l ++ [c]).getD i d = l.getD i d := by
  have hlen : i < (l ++ [c]).length := by
    simp only [List.length_append, List.length_cons, List.length_nil]
    omega
  rw [List.getD_eq_getElem _ d hlen, List.getD_eq_getElem _ d h]
  exact List.getElem_append_left _

theorem getD_append_last (l : List Pt) (c : Pt) (d : Pt) :
    (l ++ [c]).getD l.length d = c := by
  rw [List.getD_eq_getElem _ d (by simp)]
  simp

theorem polygonArea_append_closure (l : List Pt) (h3 : 3 ≤ l.length) :
    Sdf.polygonArea (l ++ [l.getD 0 (0, 0)]) = Sdf.polygonArea l := by
  rw [Sdf.polygonArea, Sdf.polygonArea,
    if_neg (by simp only [List.length_append, List.length_cons, List.length_nil]; omega),
    if_neg (by omega)]
  congr 1
  simp only [List.length_append, List.length_cons, List.length_nil]
  rw [Finset.sum_range_succ]
  rw [show (l.length + 1) % (l.length + 1) = 0 from Nat.mod_self _]
  rw [getD_append_last, getD_append_lt l _ 0 (by omega)]
  have hmain : ∀ i ∈ Finset.range l.length,
      ((l ++ [l.getD 0 (0, 0)]).getD i (0, 0)).1
        * ((l ++ [l.getD 0 (0, 0)]).getD ((i + 1) % (l.length + 1)) (0, 0)).2
      - ((l ++ [l.getD 0 (0, 0)]).getD ((i + 1) % (l.length + 1)) (0, 0)).1
        * ((l ++ [l.getD 0 (0, 0)]).getD i (0, 0)).2
      = (l.getD i (0, 0)).1 * (l.getD ((i + 1) % l.length) (0, 0)).2
        - (l.getD ((i + 1) % l.length) (0, 0)).1 * (l.getD i (0, 0)).2 := by
    intro i hi
    simp only [Finset.mem_range] at hi
    rw [getD_append_lt l _ i hi]
    by_cases hlastidx : i = l.length - 1
    · subst hlastidx
      rw [show (l.length - 1 + 1) % (l.length + 1) = l.length by
          rw [show l.length - 1 + 1 = l.length by omega]
          exact Nat.mod_eq_of_lt (by omega),
        show (l.length - 1 + 1) % l.length = 0 by
          rw [show l.length - 1 + 1 = l.length by omega]
          exact Nat.mod_self _,
        getD_append_last]
    · rw [show (i + 1) % (l.length + 1) = i + 1 from Nat.mod_eq_of_lt (by omega),
        show (i + 1) % l.length = i + 1 from Nat.mod_eq_of_lt (by omega),
        getD_append_lt l _ (i + 1) (by omega)]
  rw [Finset.sum_congr rfl hmain]
  ring

theorem headD_eq_getD {α : Type} (l : List α) (d : α) : l.headD d = l.getD 0 d := by
  cases l <;> rfl

/-- **C8**: every polygon returned by `segmentsToPolygon` has non-negative
shoelace signed area: on the marching-squares path a loop with negative area
is reversed (negating the area) before being returned, appending the closure
duplicate of the first point does not change the area, and every fallback
24-gon is built counter-clockwise with area `12 r² sin(π/12) ≥ 0`. -/
theorem claim_C8 (segments : List Seg) (gr si rm td : ℝ) :
    0 ≤ Sdf.polygonArea (Sdf.segmentsToPolygon segments gr si rm td) := by
  by_cases hseg : segments = []
  · subst hseg
    rw [Sdf.segmentsToPolygon, if_pos rfl]
    exact polygonArea_fallback_nonneg []
  · simp only [Sdf.segmentsToPolygon]
    rw [if_neg hseg]
    by_cases h3 : (Sdf.contourSegs (Sdf.gridOf segments gr rm td) segments).length < 3
    · rw [if_pos h3]
      exact polygonArea_fallback_nonneg segments
    · rw [if_neg h3]
      by_cases hlp : Sdf.buildLoopsFromSegments
          (Sdf.contourSegs (Sdf.gridOf segments gr rm td) segments) = []
      · rw [if_pos hlp]
        exact polygonArea_fallback_nonneg segments
      · rw [if_neg hlp]
        by_cases h8 : (Sdf.simplifyLoop
            (Sdf.chaikin
              (Sdf.bestLoop (Sdf.buildLoopsFromSegments
                (Sdf.contourSegs (Sdf.gridOf segments gr rm td) segments)))
              (Sdf.smoothIters si) 0.12)
            ((Sdf.gridOf segments gr rm td).cellSize * 0.22) 0.012).length < 8
        · rw [if_pos h8]
          exact polygonArea_fallback_nonneg segments
        · rw [if_neg h8]
          push_neg at h8
          set L := Sdf.simplifyLoop
            (Sdf.chaikin
              (Sdf.bestLoop (Sdf.buildLoopsFromSegments
                (Sdf.contourSegs (Sdf.gridOf segments gr rm td) segments)))
              (Sdf.smoothIters si) 0.12)
            ((Sdf.gridOf segments gr rm td).cellSize * 0.22) 0.012 with hL
          have harea2 : 0 ≤ Sdf.polygonArea (if Sdf.polygonArea L < 0 then L.reverse else L) := by
            split
            · rw [polygonArea_reverse]
              rename_i hneg
              linarith
            · rename_i hpos
              push_neg at hpos
              exact hpos
          have hlen2 : 8 ≤ (if Sdf.polygonArea L < 0 then L.reverse else L).length := by
            split
            · simpa using h8
            · exact h8
          set L2 := if Sdf.polygonArea L < 0 then L.reverse else L with hL2
          split
          · rw [show ((L2.headD (0, 0)).1, (L2.headD (0, 0)).2) = L2.getD 0 (0, 0) by
              rw [show ((L2.headD (0, 0)).1, (L2.headD (0, 0)).2)
                  = L2.headD (0, 0) from rfl, headD_eq_getD]]
            rw [polygonArea_append_closure L2 (by omega)]
            exact harea2
          · exact harea2

/-! ## Claim C5 — minimum feature size -/

theorem segLen_polar (p : Pt) (a L : ℝ) :
    segLen (p, (p.1 + Real.cos a * L, p.2 + Real.sin a * L)) = |L| := by
  rw [segLen]
  simp only
  rw [show p.1 + Real.cos a * L - p.1 = Real.cos a * L by ring,
    show p.2 + Real.sin a * L - p.2 = Real.sin a * L by ring]
  rw [show (Real.cos a * L) ^ 2 + (Real.sin a * L) ^ 2 = L ^ 2 by
    linear_combination L ^ 2 * Real.sin_sq_add_cos_sq a]
  exact Real.sqrt_sq_eq_abs L

theorem segLen_horizontal (x1 x2 y : ℝ) :
    segLen ((x1, y), (x2, y)) = |x2 - x1| := by
  rw [segLen]
  simp only
  rw [show y - y = (0 : ℝ) by ring,
    show (x2 - x1) ^ 2 + (0 : ℝ) ^ 2 = (x2 - x1) ^ 2 by ring]
  exact Real.sqrt_sq_eq_abs _

theorem segLen_mirror (s : Seg) : segLen (mirrorSeg s) = segLen s := by
  rw [segLen, segLen, mirrorSeg, mirrorPt, mirrorPt]
  simp only
  congr 1
  ring

theorem segLen_rotate (s : Seg) (a : ℝ) : segLen (rotateSeg s a) = segLen s := by
  rw [segLen, segLen, rotateSeg, rotatePoint, rotatePoint]
  simp only
  congr 1
  linear_combination ((s.2.1 - s.1.1) ^ 2 + (s.2.2 - s.1.2) ^ 2) * Real.sin_sq_add_cos_sq a

theorem minLen_append (l xs : List Seg)
    (hl : ∀ s ∈ l, 0.06 ≤ segLen s) (hx : ∀ s ∈ xs, 0.06 ≤ segLen s) :
    ∀ s ∈ l ++ xs, 0.06 ≤ segLen s := by
  intro s hs
  rcases List.mem_append.mp hs with h | h
  · exact hl s h
  · exact hx s h

theorem minLen_single (a : Seg) (ha : 0.06 ≤ segLen a) :
    ∀ s ∈ [a], 0.06 ≤ segLen s := by
  intro s hs
  rw [List.mem_singleton] at hs
  subst hs
  exact ha


theorem geo1_armStep_invariant (stream : ℕ → ℝ) (levels : ℕ) (tn baseStep : ℝ)
    (st : Geo1.BuildState) (i : ℕ)
    (h : st.prev = (st.xCursor, 0) ∧ ∀ s ∈ st.halfArm, 0.06 ≤ segLen s) :
    (Geo1.armStep stream levels tn baseStep st i).prev
        = ((Geo1.armStep stream levels tn baseStep st i).xCursor, 0)
      ∧ ∀ s ∈ (Geo1.armStep stream levels tn baseStep st i).halfArm, 0.06 ≤ segLen s := by
  obtain ⟨hprev, hmin⟩ := h
  have harm1 : ∀ s ∈ (if 0.06 ≤ baseStep * (0.82 + stream st.k * 0.28)
      then st.halfArm ++ [(st.prev,
        ((st.xCursor + baseStep * (0.82 + stream st.k * 0.28), 0) : Pt))]
      else st.halfArm), 0.06 ≤ segLen s := by
    split
    · rename_i hstep
      refine minLen_append _ _ hmin (minLen_single _ ?_)
      rw [hprev, segLen_horizontal, show st.xCursor + baseStep
          * (0.82 + stream st.k * 0.28) - st.xCursor
          = baseStep * (0.82 + stream st.k * 0.28) by ring,
        abs_of_nonneg (by linarith)]
      exact hstep
    · exact hmin
  simp only [Geo1.armStep]
  split
  · exact ⟨rfl, harm1⟩
  · split
    · split
      · refine ⟨rfl, ?_⟩
        refine minLen_append _ _ (minLen_append _ _ harm1 (minLen_single _ ?_))
          (minLen_single _ ?_)
        · rw [segLen_polar, abs_of_nonneg]
          · exact le_max_left _ _
          · exact le_trans (by norm_num) (le_max_left 0.06 _)
        · rw [segLen_polar, abs_of_nonneg]
          · exact le_max_left _ _
          · exact le_trans (by norm_num) (le_max_left 0.06 _)
      · refine ⟨rfl, ?_⟩
        refine minLen_append _ _ harm1 (minLen_single _ ?_)
        rw [segLen_polar, abs_of_nonneg]
        · exact le_max_left _ _
        · exact le_trans (by norm_num) (le_max_left 0.06 _)
    · exact ⟨rfl, harm1⟩


theorem geo1_build_minLen (stream : ℕ → ℝ) (complexity thickness : ℝ) :
    ∀ s ∈ Geo1.buildSnowflake2D stream complexity thickness, 0.06 ≤ segLen s := by
  intro s hs
  rw [Geo1.buildSnowflake2D, replicate6, List.mem_flatMap] at hs
  obtain ⟨i, _, hs⟩ := hs
  rw [List.mem_map] at hs
  obtain ⟨t, ht, rfl⟩ := hs
  rw [segLen_rotate]
  rw [Geo1.armOf, List.mem_flatMap] at ht
  obtain ⟨u, hu, ht⟩ := ht
  have hhalf : ∀ v ∈ Geo1.halfArmOf stream (levelsNat complexity)
      (clampThickness thickness / 20), 0.06 ≤ segLen v := by
    rw [Geo1.halfArmOf]
    have hrec := List.foldlRecOn (List.range (levelsNat complexity + 2))
      (Geo1.armStep stream (levelsNat complexity) (clampThickness thickness / 20)
        (0.28 + (levelsNat complexity : ℝ) * 0.05))
      ({ k := 0, prev := (0, 0), xCursor := 0, halfArm := [] } : Geo1.BuildState)
      (motive := fun st => st.prev = (st.xCursor, 0) ∧ ∀ v ∈ st.halfArm, 0.06 ≤ segLen v)
      ⟨rfl, by intro v hv; simp at hv⟩
      (fun b hb a _ => geo1_armStep_invariant _ _ _ _ b a hb)
    exact hrec.2
  have hu' := hhalf u hu
  revert ht
  split
  · intro ht
    rw [List.mem_singleton] at ht
    subst ht
    exact hu'
  · intro ht
    rcases List.mem_cons.mp ht with h | h
    · subst h
      exact hu'
    · rw [List.mem_singleton] at h
      subst h
      rw [segLen_mirror]
      exact hu'


theorem minLen_nil : ∀ s ∈ ([] : List Seg), 0.06 ≤ segLen s := by
  intro s hs
  simp at hs

theorem minLen_polar_seg (p : Pt) (a L : ℝ) (hL : 0.06 ≤ L) :
    0.06 ≤ segLen (p, (p.1 + Real.cos a * L, p.2 + Real.sin a * L)) := by
  rw [segLen_polar, abs_of_nonneg (le_trans (by norm_num) hL)]
  exact hL

theorem minLen_ite_nil {c : Prop} [Decidable c] (A : List Seg)
    (hA : ∀ s ∈ A, 0.06 ≤ segLen s) :
    ∀ s ∈ (if c then A else []), 0.06 ≤ segLen s := by
  split
  · exact hA
  · exact minLen_nil

theorem minLen_map {α : Type} (params : List α) (f : α → Seg)
    (hf : ∀ x, 0.06 ≤ segLen (f x)) : ∀ s ∈ params.map f, 0.06 ≤ segLen s := by
  intro s hs
  rw [List.mem_map] at hs
  obtain ⟨x, _, rfl⟩ := hs
  exact hf x

theorem geo0_branchStep_invariant (stream : ℕ → ℝ) (L nodeCount : ℕ) (tn : ℝ)
    (xs : ℕ → ℝ) (st : ℕ × List Seg) (i : ℕ)
    (h : ∀ s ∈ st.2, 0.06 ≤ segLen s) :
    ∀ s ∈ (Geo0.branchStep stream L nodeCount tn xs st i).2, 0.06 ≤ segLen s := by
  simp only [Geo0.branchStep]
  split
  · exact h
  · split
    · exact h
    · simp only
      refine minLen_append _ _ (minLen_append _ _ h ?_) ?_ <;>
      · refine minLen_append _ _ (minLen_append _ _ (minLen_single _ ?_) ?_) ?_
        · exact minLen_polar_seg _ _ _ (le_max_left _ _)
        · exact minLen_ite_nil _
            (minLen_map _ _ (fun tp => minLen_polar_seg _ _ _ (le_max_left _ _)))
        · exact minLen_ite_nil _
            (minLen_map _ _ (fun pp => minLen_polar_seg _ _ _ (le_max_left _ _)))


theorem geo0_step_lower (L : ℕ) (v : ℝ) (hv : 0 ≤ v) :
    0.06 ≤ (3 + (L : ℝ) * 0.42) / (((L + 8 : ℕ) : ℝ) - 1) * (0.9 + v * 0.2) := by
  have hL : (0 : ℝ) ≤ (L : ℝ) := Nat.cast_nonneg L
  have hden : (0 : ℝ) < ((L + 8 : ℕ) : ℝ) - 1 := by push_cast; linarith
  rw [div_mul_eq_mul_div, le_div_iff₀ hden]
  push_cast
  nlinarith [mul_nonneg (by linarith : (0 : ℝ) ≤ 3 + (L : ℝ) * 0.42)
    (by linarith : (0 : ℝ) ≤ v * 0.2)]

theorem geo0_spineX_succ (stream : ℕ → ℝ) (sb : ℝ) (i : ℕ) :
    Geo0.spineX stream sb (i + 1) - Geo0.spineX stream sb i
      = sb * (0.9 + stream i * 0.2) := by
  simp only [Geo0.spineX]
  ring

theorem geo0_armOf_minLen (stream : ℕ → ℝ) (L : ℕ) (tn : ℝ) (hs : ∀ n, 0 ≤ stream n) :
    ∀ s ∈ Geo0.armOf stream L tn, 0.06 ≤ segLen s := by
  have hstep : ∀ i : ℕ, 0.06 ≤ Geo0.spineX stream
      ((3 + (L : ℝ) * 0.42) / (((L + 8 : ℕ) : ℝ) - 1)) (i + 1)
      - Geo0.spineX stream ((3 + (L : ℝ) * 0.42) / (((L + 8 : ℕ) : ℝ) - 1)) i := by
    intro i
    rw [geo0_spineX_succ]
    exact geo0_step_lower L (stream i) (hs i)
  have hhoriz : ∀ (i : ℕ) (y : ℝ), 0.06 ≤ segLen
      ((Geo0.spineX stream ((3 + (L : ℝ) * 0.42) / (((L + 8 : ℕ) : ℝ) - 1)) i, y),
       (Geo0.spineX stream ((3 + (L : ℝ) * 0.42) / (((L + 8 : ℕ) : ℝ) - 1)) (i + 1), y)) := by
    intro i y
    rw [segLen_horizontal, abs_of_nonneg (by linarith [hstep i])]
    exact hstep i
  rw [Geo0.armOf]
  simp only
  refine minLen_append _ _ (minLen_append _ _ (minLen_append _ _ ?_ ?_) ?_) ?_
  · exact minLen_map _ _ fun i => hhoriz i 0
  · intro s hmem
    rw [List.mem_flatMap] at hmem
    obtain ⟨i, _, hmem⟩ := hmem
    rcases List.mem_cons.mp hmem with h1 | hmem
    · subst h1
      exact hhoriz i _
    · rw [List.mem_singleton] at hmem
      subst hmem
      exact hhoriz i _
  · have hrec := List.foldlRecOn (List.range' 1 (L + 8 - 2))
      (Geo0.branchStep stream L (L + 8) tn
        (Geo0.spineX stream ((3 + (L : ℝ) * 0.42) / (((L + 8 : ℕ) : ℝ) - 1))))
      ((L + 8 - 1, []) : ℕ × List Seg)
      (motive := fun st => ∀ s ∈ st.2, 0.06 ≤ segLen s)
      (by intro s hh; simp at hh)
      (fun b hb a _ => geo0_branchStep_invariant _ _ _ _ _ b a hb)
    exact hrec
  · have htipLen : (0.32 : ℝ) ≤ max 0.06 (0.32 + (L : ℝ) * 0.022) := by
      have hL : (0 : ℝ) ≤ (L : ℝ) := Nat.cast_nonneg L
      refine le_trans (by linarith) (le_max_right _ _)
    intro s hmem
    rcases List.mem_cons.mp hmem with h1 | hmem
    · subst h1
      exact minLen_polar_seg _ _ _ (le_max_left _ _)
    rcases List.mem_cons.mp hmem with h2 | hmem
    · subst h2
      exact minLen_polar_seg _ _ _ (le_max_left _ _)
    rw [List.mem_singleton] at hmem
    subst hmem
    refine minLen_polar_seg _ _ _ ?_
    nlinarith [htipLen]

theorem geo0_build_minLen (stream : ℕ → ℝ) (complexity thickness : ℝ)
    (hs : ∀ n, 0 ≤ stream n) :
    ∀ s ∈ Geo0.buildSnowflake2D stream complexity thickness, 0.06 ≤ segLen s := by
  intro s hsm
  rw [Geo0.buildSnowflake2D, replicate6, List.mem_flatMap] at hsm
  obtain ⟨i, _, hsm⟩ := hsm
  rw [List.mem_map] at hsm
  obtain ⟨t, ht, rfl⟩ := hsm
  rw [segLen_rotate]
  exact geo0_armOf_minLen stream (levelsNat complexity)
    (clampThickness thickness / 20) hs t ht


/-- **C5**: for every rand stream with non-negative values (the seeded RNG
always yields values in `[0, 1)`), every complexity and every thickness,
every segment emitted by either `buildSnowflake2D` variant — spine, rails,
branches, twigs, plates and tip segments, after six-fold replication (and
mirroring, which both preserve length) — has Euclidean length at least the
minimum feature size `0.06`. -/
theorem claim_C5 (stream : ℕ → ℝ) (complexity thickness : ℝ)
    (hs : ∀ n, 0 ≤ stream n) :
    (∀ s ∈ Geo1.buildSnowflake2D stream complexity thickness, 0.06 ≤ segLen s) ∧
    (∀ s ∈ Geo0.buildSnowflake2D stream complexity thickness, 0.06 ≤ segLen s) :=
  ⟨geo1_build_minLen stream complexity thickness,
   geo0_build_minLen stream complexity thickness hs⟩

/-- **C5, witness**: the all-zero stream at complexity 5, thickness 10. -/
theorem claim_C5_witness :
    (∀ s ∈ Geo1.buildSnowflake2D (fun _ => 0) 5 10, 0.06 ≤ segLen s) ∧
    (∀ s ∈ Geo0.buildSnowflake2D (fun _ => 0) 5 10, 0.06 ≤ segLen s) :=
  claim_C5 (fun _ => 0) 5 10 (fun _ => le_refl 0)


/-! ## Claim C7 — mirror-symmetric relief classification -/

theorem jsRound_sub_bounds (x : ℝ) :
    -(1 / 2) ≤ x - ((jsRound x : ℤ) : ℝ) ∧ x - ((jsRound x : ℤ) : ℝ) < 1 / 2 := by
  rw [jsRound]
  have h1 : ((⌊x + 1 / 2⌋ : ℤ) : ℝ) ≤ x + 1 / 2 := Int.floor_le _
  have h2 : x + 1 / 2 < ((⌊x + 1 / 2⌋ : ℤ) : ℝ) + 1 := Int.lt_floor_add_one _
  constructor <;> linarith

theorem jsRound_abs_neg (x : ℝ) :
    |(-x) - ((jsRound (-x) : ℤ) : ℝ)| = |x - ((jsRound x : ℤ) : ℝ)| := by
  rw [jsRound, jsRound]
  set n := ⌊x + 1 / 2⌋ with hn
  set f := Int.fract (x + 1 / 2) with hf
  have hf0 : 0 ≤ f := Int.fract_nonneg _
  have hf1 : f < 1 := Int.fract_lt_one _
  have hx : x = (n : ℝ) + f - 1 / 2 := by
    rw [hn, hf, Int.fract]
    ring
  have hfloor : ⌊-x + 1 / 2⌋ = -n + ⌊1 - f⌋ := by
    rw [show -x + 1 / 2 = ((-n : ℤ) : ℝ) + (1 - f) by rw [hx]; push_cast; ring]
    exact Int.floor_int_add _ _
  by_cases hf00 : f = 0
  · rw [hfloor, show ⌊1 - f⌋ = 1 by rw [hf00]; norm_num]
    rw [hx, hf00]
    push_cast
    rw [show (n : ℝ) + 0 - 1 / 2 - n = -(1 / 2) by ring,
      show -((n : ℝ) + 0 - 1 / 2) - (-n + 1) = -(1 / 2) by ring]
  · have hfpos : 0 < f := lt_of_le_of_ne hf0 (Ne.symm hf00)
    rw [hfloor, show ⌊1 - f⌋ = 0 from Int.floor_eq_zero_iff.mpr
      (Set.mem_Ico.mpr ⟨by linarith, by linarith⟩)]
    rw [hx]
    push_cast
    rw [show (n : ℝ) + f - 1 / 2 - n = f - 1 / 2 by ring,
      show -((n : ℝ) + f - 1 / 2) - (-n + 0) = -(f - 1 / 2) by ring, abs_neg]


theorem shortestAngleDiff_small (a b : ℝ) (h1 : a - b ≤ Real.pi) (h2 : -Real.pi ≤ a - b) :
    Sdf.shortestAngleDiff a b = a - b := by
  rw [Sdf.shortestAngleDiff]
  rw [if_neg (by linarith), if_neg (by linarith)]

theorem delta_eq_scaled (θ : ℝ) :
    Sdf.shortestAngleDiff θ ((jsRound (θ / (Real.pi / 3)) : ℝ) * (Real.pi / 3))
      = (θ / (Real.pi / 3) - (jsRound (θ / (Real.pi / 3)) : ℝ)) * (Real.pi / 3) := by
  have hc : (0 : ℝ) < Real.pi / 3 := by positivity
  have hb := jsRound_sub_bounds (θ / (Real.pi / 3))
  have hθ : θ = θ / (Real.pi / 3) * (Real.pi / 3) := by field_simp
  have hd : θ - (jsRound (θ / (Real.pi / 3)) : ℝ) * (Real.pi / 3)
      = (θ / (Real.pi / 3) - (jsRound (θ / (Real.pi / 3)) : ℝ)) * (Real.pi / 3) := by
    nth_rewrite 1 [hθ]
    ring
  rw [shortestAngleDiff_small _ _ ?_ ?_, hd]
  · rw [hd]
    nlinarith [Real.pi_pos, hb.1, hb.2]
  · rw [hd]
    nlinarith [Real.pi_pos, hb.1, hb.2]

theorem delta_neg (θ : ℝ) :
    |Sdf.shortestAngleDiff (-θ) ((jsRound (-θ / (Real.pi / 3)) : ℝ) * (Real.pi / 3))|
      = |Sdf.shortestAngleDiff θ ((jsRound (θ / (Real.pi / 3)) : ℝ) * (Real.pi / 3))| := by
  rw [delta_eq_scaled, delta_eq_scaled]
  rw [abs_mul, abs_mul]
  congr 1
  rw [show -θ / (Real.pi / 3) = -(θ / (Real.pi / 3)) by ring]
  exact jsRound_abs_neg (θ / (Real.pi / 3))


theorem atan2_neg_y (y x : ℝ) :
    Sdf.atan2 (-y) x = if Sdf.atan2 y x = Real.pi then Real.pi else -Sdf.atan2 y x := by
  rw [Sdf.atan2, Sdf.atan2]
  rw [show (⟨x, -y⟩ : ℂ) = (starRingEnd ℂ) ⟨x, y⟩ by
    apply Complex.ext <;> simp]
  exact Complex.arg_conj _

theorem analyzeSegment_mirror_depth (s : Seg) :
    (Sdf.analyzeSegment (mirrorSeg s)).depthScale = (Sdf.analyzeSegment s).depthScale := by
  rw [Sdf.analyzeSegment, Sdf.analyzeSegment, mirrorSeg, mirrorPt, mirrorPt]
  simp only
  rw [show -s.2.2 - -s.1.2 = -(s.2.2 - s.1.2) by ring]
  rw [show (-(s.2.2 - s.1.2)) ^ 2 = (s.2.2 - s.1.2) ^ 2 by ring]
  rw [show (-s.1.2 + -s.2.2) * 0.5 = -((s.1.2 + s.2.2) * 0.5) by ring]
  rw [show (-((s.1.2 + s.2.2) * 0.5)) ^ 2 = ((s.1.2 + s.2.2) * 0.5) ^ 2 by ring]
  rw [atan2_neg_y]
  by_cases hpi : Sdf.atan2 ((s.1.2 + s.2.2) * 0.5) ((s.1.1 + s.2.1) * 0.5) = Real.pi
  · rw [if_pos hpi, hpi]
  · rw [if_neg hpi]
    rw [show -Sdf.atan2 ((s.1.2 + s.2.2) * 0.5) ((s.1.1 + s.2.1) * 0.5)
          / (Real.pi / 3)
        = -(Sdf.atan2 ((s.1.2 + s.2.2) * 0.5) ((s.1.1 + s.2.1) * 0.5))
          / (Real.pi / 3) by ring]
    rw [delta_neg (Sdf.atan2 ((s.1.2 + s.2.2) * 0.5) ((s.1.1 + s.2.1) * 0.5))]


/-- **C7**: the relief classification is mirror-symmetric: `analyzeSegments`
computes the same `depthScale` for a segment and for its mirror image across
the X axis.  The midpoint angle negates (or stays `π` on the negative real
axis, `Complex.arg_conj`), the angular deviation from the nearest 60° axis is
invariant under negation even with `Math.round`'s asymmetric tie-breaking,
and radius, length, and hence the deterministic jitter and clamped depth
scale are unchanged. -/
theorem claim_C7 (segments : List Seg) (s : Seg) :
    (Sdf.analyzeSegment (mirrorSeg s)).depthScale = (Sdf.analyzeSegment s).depthScale ∧
    (Sdf.analyzeSegments (segments.map mirrorSeg)).map Sdf.Analyzed.depthScale
      = (Sdf.analyzeSegments segments).map Sdf.Analyzed.depthScale := by
  constructor
  · exact analyzeSegment_mirror_depth s
  · simp only [Sdf.analyzeSegments, List.map_map]
    refine List.map_congr_left fun t _ => ?_
    simp only [Function.comp]
    exact analyzeSegment_mirror_depth t


end Snowflake
